import Mathlib

/-!
Shallow embedding of the channel/mixer core of `src/mixer.c` (SDL_mixer).

Conventions used throughout:
* C `int` values that are provably nonnegative in every reachable state
  (volumes, byte counts, cursors) are modelled as `Nat`; values that use `-1`
  as a sentinel (channel selectors, loop counters, tags) are modelled as `Int`.
* `Uint64` tick values are modelled as `Nat`; the one place the code subtracts
  two `Uint64`s (`sdl_ticks - ticks_fade`) is modelled by `usub64`, the exact
  64-bit wrapping subtraction.
* Pointers are modelled by what they point at: a channel's `samples` cursor
  becomes a byte offset `samplesPos` into the chunk buffer, the `chunk`
  pointer becomes the chunk's payload fields (`hasChunk`, `chunkAlen`,
  `chunkVolume`), effect-function pointers become `Nat` identifiers
  (`Option Nat` where NULL is meaningful).
* Calls into user callbacks (the channel-finished callback, effect release
  callbacks) and buffer reads are recorded as events in an output trace; the
  callbacks themselves are external and do not mutate engine state in this
  model.
-/

/-- MIX_MAX_VOLUME (= SDL_MIX_MAXVOLUME = 128). -/
def mixMaxVolume : Nat := 128

/-- The `Mix_Fading` enumeration. -/
inductive Fading where
  | noFading
  | fadingIn
  | fadingOut
deriving DecidableEq, Repr

/-- One node of a channel's (or the post stage's) effect chain
(`effect_info`): the transform callback, the optional release callback and
the opaque user data, each modelled by an identifier. -/
structure EffectInfo where
  callback : Nat
  doneCallback : Option Nat
  udata : Nat
deriving DecidableEq, Repr

/-- A `Mix_Chunk`: buffer length in bytes (`alen`) and chunk volume. The
sample bytes themselves are irrelevant to the verified properties; reads of
the buffer are recorded as byte ranges. -/
structure Chunk where
  alen : Nat
  volume : Nat
deriving DecidableEq, Repr

/-- One slot of the channel registry (`struct _Mix_Channel`). `samplesPos` is
the offset of the C `samples` pointer from `chunk->abuf`; `hasChunk`,
`chunkAlen`, `chunkVolume` model the `chunk` pointer's referent. -/
structure Channel where
  hasChunk : Bool
  chunkAlen : Nat
  chunkVolume : Nat
  playing : Nat
  paused : Nat
  samplesPos : Nat
  volume : Nat
  looping : Int
  tag : Int
  expire : Nat
  startTime : Nat
  fading : Fading
  fadeVolume : Nat
  fadeVolumeReset : Nat
  fadeLength : Nat
  ticksFade : Nat
  effects : List EffectInfo
deriving DecidableEq, Repr

/-- Engine-wide state: the channel registry (`mix_channel` array together
with `num_channels`, as a list), `reserved_channels`, the `audio_opened`
flag, and the device format fields that determine the frame width. -/
structure Mixer where
  channels : List Channel
  reservedChannels : Nat
  audioOpened : Bool
  fmt16Bit : Bool
  fmtChannels : Nat
deriving DecidableEq, Repr

/-- Events emitted by the modelled operations: a read of the chunk buffer
byte range [off, off+len), the channel-finished callback firing, or an
effect release callback firing. -/
inductive Ev where
  | read (off len : Nat)
  | done
  | release (doneCallback udata : Nat)
deriving DecidableEq, Repr

/-- Every buffer read recorded in a trace stays strictly inside the first
`alen` bytes of the chunk buffer. -/
def readsBounded (alen : Nat) (evs : List Ev) : Prop :=
  ∀ off n, Ev.read off n ∈ evs → off + n ≤ alen

/-- Exact 64-bit wrapping subtraction, the semantics of `a - b` on `Uint64`
operands. -/
def usub64 (a b : Nat) : Nat := (a % 2 ^ 64 + (2 ^ 64 - b % 2 ^ 64)) % 2 ^ 64

/-- Conversion of a C `int` to `Uint64` (used for `(Uint64)ms`). -/
def intToU64 (z : Int) : Nat := (z % (2 ^ 64 : Int)).toNat

/-- Single-channel core of `Mix_Playing`: `(mix_channel[i].playing > 0) ||
mix_channel[i].looping`. -/
def channelActive (ch : Channel) : Bool := ch.playing > 0 || ch.looping != 0

/-- `Mix_Playing` for a single channel index (the count contributed by one
valid channel). -/
def Mix_Playing1 (ch : Channel) : Nat := if channelActive ch then 1 else 0

/-! ## Volume control (`Mix_Volume`, mixer.c lines 1206-1226) -/

/-- The per-channel body of `Mix_Volume`: record the previous volume, and if
the requested volume is nonnegative store it clamped to `MIX_MAX_VOLUME`. -/
def channelVolumeOp (ch : Channel) (volume : Int) : Channel × Nat :=
  let prev := ch.volume
  if 0 ≤ volume then
    let v : Int := if volume > (mixMaxVolume : Int) then (mixMaxVolume : Int) else volume
    ({ ch with volume := v.toNat }, prev)
  else
    (ch, prev)

/-- The `which == -1` loop of `Mix_Volume`: apply the per-channel body to
every channel, summing the previous volumes. -/
def volumeAll (volume : Int) : List Channel → List Channel × Nat
  | [] => ([], 0)
  | ch :: rest =>
      let (ch', prev) := channelVolumeOp ch volume
      let (rest', sum) := volumeAll volume rest
      (ch' :: rest', prev + sum)

/-- `Mix_Volume(which, volume)`.  For `which = -1` the previous volumes are
averaged with C integer division (division by zero in C when no channels are
allocated; `Nat` division then yields 0 here).  For `which < -1` the C code
would index out of bounds; the model leaves the state unchanged and returns
the initial `prev_volume = 0` (same as the `which >= num_channels` path). -/
def Mix_Volume (m : Mixer) (which volume : Int) : Mixer × Nat :=
  if which = -1 then
    let (chs, total) := volumeAll volume m.channels
    ({ m with channels := chs }, total / m.channels.length)
  else if h : 0 ≤ which ∧ which.toNat < m.channels.length then
    let (ch', prev) := channelVolumeOp (m.channels.get ⟨which.toNat, h.2⟩) volume
    ({ m with channels := m.channels.set which.toNat ch' }, prev)
  else
    (m, 0)

/-! ## Group tagging (`Mix_GroupChannel`, mixer.c lines 1493-1503) -/

/-- `Mix_GroupChannel(which, tag)`.  The C range check is
`which < 0 || which > num_channels` -- note `>` rather than `>=` -- and on
acceptance the code stores `mix_channel[which].tag = tag` unconditionally.
The third component records the index of that store when it happens; a store
at index `num_channels` is one element past the allocated array (the list
update then changes nothing in the model, but the C write is out of
bounds). -/
def Mix_GroupChannel (m : Mixer) (which tag : Int) : Mixer × Bool × Option Nat :=
  if which < 0 ∨ which > (m.channels.length : Int) then
    (m, false, none)
  else
    ({ m with channels :=
        (m.channels.mapIdx fun i ch => if i = which.toNat then { ch with tag := tag } else ch) },
     true, some which.toNat)

/-! ## Effect chains (mixer.c lines 1585-1678) -/

/-- `_Mix_register_effect(e, f, d, arg)`: rejects a NULL transform callback,
otherwise appends a node at the end of the chain.  (The `!e` internal-error
check and the malloc-failure path are not modelled: the caller always passes
a valid chain head here and the claims do not involve allocation failure.) -/
def Mix_register_effect (e : List EffectInfo) (f : Option Nat) (d : Option Nat)
    (arg : Nat) : Option (List EffectInfo) :=
  match f with
  | none => none
  | some f' => some (e ++ [⟨f', d, arg⟩])

/-- The release events produced by draining an effect chain in order: each
node with a non-NULL release callback fires it once. -/
def drainEvents : List EffectInfo → List Ev
  | [] => []
  | cur :: next =>
      (match cur.doneCallback with
       | some d => [Ev.release d cur.udata]
       | none => []) ++ drainEvents next

/-- `_Mix_remove_all_effects(channel, e)`: walks the chain, invoking every
release callback, frees every node and sets the chain empty; always returns
true. -/
def Mix_remove_all_effects (e : List EffectInfo) : Bool × List Ev × List EffectInfo :=
  (true, drainEvents e, [])

/-! ## Channel halt and finished-channel cleanup -/

/-- `_Mix_channel_done_playing(channel)` applied to one channel: fire the
channel-finished callback (the `Ev.done` event) and drain the channel's
effect chain in place. -/
def channelDonePlaying (ch : Channel) : Channel × List Ev :=
  ({ ch with effects := [] }, Ev.done :: drainEvents ch.effects)

/-- `Mix_HaltChannel_locked(which)` applied to one channel: if active, clear
playing/looping and run the done-playing cleanup; always clear the expiry;
if fading, restore the pre-fade volume; always clear the fade state. -/
def Mix_HaltChannel_locked (ch : Channel) : Channel × List Ev :=
  let (ch1, evs) :=
    if channelActive ch then
      channelDonePlaying { ch with playing := 0, looping := 0 }
    else (ch, [])
  let ch2 := { ch1 with expire := 0 }
  let ch3 := if ch2.fading ≠ Fading.noFading then { ch2 with volume := ch2.fadeVolumeReset } else ch2
  ({ ch3 with fading := Fading.noFading }, evs)

/-! ## The mixing callback, per-channel body (`mix_channels`, mixer.c
lines 367-460)

The callback's per-channel work is split exactly as in the source: the
expiry check, the fade check, the first render loop (consume the `playing`
counter), the loop-wraparound loop, and the final rewind.  Buffer reads are
recorded as `Ev.read off n` events (the slice of the chunk buffer handed to
`Mix_DoEffects`/`SDL_MixAudio`); the per-sample arithmetic of
`SDL_MixAudio` itself is outside the model. -/

/-- The fade check of the mixing callback (mixer.c lines 376-395), entered
when `fading != MIX_NO_FADING`: with `ticks = sdl_ticks - ticks_fade`
(64-bit subtraction), either the fade has run its course -- restore the
pre-fade volume via `Mix_Volume`, and for a fade-out force-stop the channel
(done-playing cleanup included) -- or apply the linear ramp via
`Mix_Volume`.  The ramp products are `Uint64` multiplications (the `int`
`fade_volume` is promoted), so they wrap mod 2^64 -- observable because
`Mix_FadeOutChannel` stores `fade_length = (Uint64)ms` unvalidated, making
fade lengths of 2^57 and above reachable from a negative `ms`. -/
def fadeStep (now : Nat) (ch : Channel) : Channel × List Ev :=
  if ch.fading = Fading.noFading then (ch, [])
  else
    let ticks := usub64 now ch.ticksFade
    if ticks ≥ ch.fadeLength then
      let ch1 := (channelVolumeOp ch (ch.fadeVolumeReset : Int)).1
      let res :=
        if ch1.fading = Fading.fadingOut then
          channelDonePlaying { ch1 with playing := 0, looping := 0, expire := 0 }
        else (ch1, [])
      ({ res.1 with fading := Fading.noFading }, res.2)
    else
      if ch.fading = Fading.fadingOut then
        ((channelVolumeOp ch ((ch.fadeVolume * (ch.fadeLength - ticks)) % 2 ^ 64 / ch.fadeLength : Nat)).1, [])
      else
        ((channelVolumeOp ch ((ch.fadeVolume * ticks) % 2 ^ 64 / ch.fadeLength : Nat)).1, [])

/-- One iteration's state advance of the first render loop: move the
cursor past the mixed slice, decrease the play counter, and -- if the
chunk ran out with no looping left -- clear fade/expiry and run the
done-playing cleanup (mixer.c lines 414-427). -/
def mixStep1 (ch : Channel) (mixable : Nat) : Channel × List Ev :=
  let ch1 := { ch with samplesPos := ch.samplesPos + mixable,
                       playing := ch.playing - mixable }
  if ch1.playing = 0 ∧ ch1.looping = 0 then
    channelDonePlaying { ch1 with fading := Fading.noFading, expire := 0 }
  else (ch1, [])

/-- The first render loop (mixer.c lines 402-428): while the channel still
has bytes to play and output space remains, hand the next slice
`[samplesPos, samplesPos + mixable)` to the effects/mix stage, advance the
cursor, and when the chunk runs out with no looping left fire the
done-playing cleanup.  Returns the channel, the final output offset and the
event trace.  (The modelled finished callback does not mutate the registry,
so the post-callback volume recomputation of the C code has no modelled
effect.) -/
def mixLoop1 (ch : Channel) (len index : Nat) : Channel × Nat × List Ev :=
  if h : 0 < ch.playing ∧ index < len then
    let mixable := min ch.playing (len - index)
    let res := mixStep1 ch mixable
    let rest := mixLoop1 res.1 len (index + mixable)
    (rest.1, rest.2.1, Ev.read ch.samplesPos mixable :: (res.2 ++ rest.2.2))
  else
    (ch, index, [])
termination_by len - index
decreasing_by
  have h1 : 0 < min ch.playing (len - index) :=
    lt_min h.1 (Nat.sub_pos_of_lt h.2)
  omega

/-- The loop-wraparound loop (mixer.c lines 432-450): while looping remains
and output space remains, mix `min (len - index) alen` bytes from the chunk
start, decrement a finite loop counter, and reposition the cursor after the
mixed slice.  The C loop does not terminate when `alen = 0`; such chunks are
rejected before playback (`checkchunkintegral`), and the model exits the
loop in that case. -/
def mixLoop2 (ch : Channel) (len index : Nat) : Channel × Nat × List Ev :=
  if h : ch.looping ≠ 0 ∧ index < len ∧ 0 < ch.chunkAlen then
    let remaining := min (len - index) ch.chunkAlen
    let ch1 := { ch with looping := if 0 < ch.looping then ch.looping - 1 else ch.looping,
                         samplesPos := remaining,
                         playing := ch.chunkAlen - remaining }
    let rest := mixLoop2 ch1 len (index + remaining)
    (rest.1, rest.2.1, Ev.read 0 remaining :: rest.2.2)
  else
    (ch, index, [])
termination_by len - index
decreasing_by
  have h1 : 0 < min (len - index) ch.chunkAlen :=
    lt_min (Nat.sub_pos_of_lt h.2.1) h.2.2
  omega

/-- The render phase for one channel (mixer.c lines 397-457): entered only
when `playing > 0`; run the first render loop, then the loop-wraparound
loop, then -- if the chunk ran out exactly at the buffer end with looping
still enabled -- rewind the cursor to the chunk start for the next
callback. -/
def renderChannel (ch : Channel) (len : Nat) : Channel × List Ev :=
  if 0 < ch.playing then
    let r1 := mixLoop1 ch len 0
    let r2 := mixLoop2 r1.1 len r1.2.1
    let ch3 :=
      if r2.1.playing = 0 ∧ r2.1.looping ≠ 0 then
        { r2.1 with looping := if 0 < r2.1.looping then r2.1.looping - 1 else r2.1.looping,
                    samplesPos := 0,
                    playing := r2.1.chunkAlen }
      else r2.1
    (ch3, r1.2.2 ++ r2.2.2)
  else (ch, [])

/-- The whole per-channel body of the mixing callback (mixer.c lines
368-458): skip a paused channel; otherwise run the expiry check, else the
fade check, and then the render phase. -/
def mixTickChannel (now : Nat) (len : Nat) (ch : Channel) : Channel × List Ev :=
  if ch.paused ≠ 0 then (ch, [])
  else
    let stepA :=
      if 0 < ch.expire ∧ ch.expire < now then
        channelDonePlaying
          { ch with playing := 0, looping := 0, fading := Fading.noFading, expire := 0 }
      else
        fadeStep now ch
    let stepB := renderChannel stepA.1 len
    (stepB.1, stepA.2 ++ stepB.2)

/-! ### Fuel-indexed evaluation forms of the render loops

The two render loops terminate because the output offset strictly
increases; their well-founded recursion does not reduce inside the kernel,
so concrete traces are computed through the following structurally
recursive forms, proved equal to the loops whenever the fuel is at least
the remaining output space. -/

/-- Fuel-indexed form of `mixLoop1`. -/
def mixLoop1F : Nat → Channel → Nat → Nat → Channel × Nat × List Ev
  | 0, ch, _, index => (ch, index, [])
  | fuel + 1, ch, len, index =>
    if 0 < ch.playing ∧ index < len then
      let mixable := min ch.playing (len - index)
      let res := mixStep1 ch mixable
      let rest := mixLoop1F fuel res.1 len (index + mixable)
      (rest.1, rest.2.1, Ev.read ch.samplesPos mixable :: (res.2 ++ rest.2.2))
    else (ch, index, [])

/-- Fuel-indexed form of `mixLoop2`. -/
def mixLoop2F : Nat → Channel → Nat → Nat → Channel × Nat × List Ev
  | 0, ch, _, index => (ch, index, [])
  | fuel + 1, ch, len, index =>
    if ch.looping ≠ 0 ∧ index < len ∧ 0 < ch.chunkAlen then
      let remaining := min (len - index) ch.chunkAlen
      let ch1 := { ch with looping := if 0 < ch.looping then ch.looping - 1 else ch.looping,
                           samplesPos := remaining,
                           playing := ch.chunkAlen - remaining }
      let rest := mixLoop2F fuel ch1 len (index + remaining)
      (rest.1, rest.2.1, Ev.read 0 remaining :: rest.2.2)
    else (ch, index, [])

/-- `renderChannel` computed through the fuel-indexed loops. -/
def renderChannelF (ch : Channel) (len : Nat) : Channel × List Ev :=
  if 0 < ch.playing then
    let r1 := mixLoop1F (len + 1) ch len 0
    let r2 := mixLoop2F (len + 1) r1.1 len r1.2.1
    let ch3 :=
      if r2.1.playing = 0 ∧ r2.1.looping ≠ 0 then
        { r2.1 with looping := if 0 < r2.1.looping then r2.1.looping - 1 else r2.1.looping,
                    samplesPos := 0,
                    playing := r2.1.chunkAlen }
      else r2.1
    (ch3, r1.2.2 ++ r2.2.2)
  else (ch, [])

/-- `mixTickChannel` computed through the fuel-indexed loops. -/
def mixTickChannelF (now : Nat) (len : Nat) (ch : Channel) : Channel × List Ev :=
  if ch.paused ≠ 0 then (ch, [])
  else
    let stepA :=
      if 0 < ch.expire ∧ ch.expire < now then
        channelDonePlaying
          { ch with playing := 0, looping := 0, fading := Fading.noFading, expire := 0 }
      else
        fadeStep now ch
    let stepB := renderChannelF stepA.1 len
    (stepB.1, stepA.2 ++ stepB.2)

/-! ## Starting playback (`checkchunkintegral` and `Mix_PlayChannelTimed`,
mixer.c lines 1048-1115) -/

/-- The frame width computed at the top of `checkchunkintegral`:
2 bytes for a 16-bit sample format, 1 otherwise, times the device channel
count. -/
def frameWidth (m : Mixer) : Nat := (if m.fmt16Bit then 2 else 1) * m.fmtChannels

/-- The truncation loop of `checkchunkintegral`:
`while (chunk->alen % frame_width) chunk->alen--;`, returning the new
`alen` (which is also the C return value). -/
def checkchunkintegral (fw : Nat) : Nat → Nat
  | 0 => 0
  | n + 1 => if (n + 1) % fw ≠ 0 then checkchunkintegral fw n else n + 1

/-- The automatic-assignment scan of `Mix_PlayChannelTimed`:
`for (i = reserved_channels; i < num_channels; ++i) if (!Mix_Playing(i))
break;` -- returns the final `i`.  Implemented structurally over the suffix
of the registry starting at the scan index. -/
def findFreeAux : List Channel → Nat → Nat
  | [], i => i
  | ch :: rest, i => if channelActive ch then findFreeAux rest (i + 1) else i

/-- The loop above started at `reserved_channels`: scan
`channels.drop reserved` carrying the absolute index. -/
def findFree (m : Mixer) : Nat := findFreeAux (m.channels.drop m.reservedChannels) m.reservedChannels

/-- The binding block of `Mix_PlayChannelTimed` (lines 1099-1109): reset the
cursor to the chunk start, arm the play counter with the (truncated) chunk
length, record loop count / chunk / start time, clear pause and fade, set
the expiry from the duration limit. -/
def bindChunk (ch : Channel) (alen chunkVol : Nat) (loops : Int) (ticks : Int)
    (now : Nat) : Channel :=
  { ch with samplesPos := 0,
            playing := alen,
            looping := loops,
            hasChunk := true,
            chunkAlen := alen,
            chunkVolume := chunkVol,
            paused := 0,
            fading := Fading.noFading,
            startTime := now,
            expire := if 0 < ticks then now + ticks.toNat else 0 }

/-- `Mix_PlayChannelTimed(which, chunk, loops, ticks)`.  A NULL chunk and a
chunk whose truncated length is zero are rejected with -1 (and an error
message in C).  For `which = -1` the first non-playing channel at or after
`reserved_channels` is chosen; if the scan runs off the end of the registry
the result is -1 ("No free channels available").  A targeted busy channel
gets the done-playing cleanup before rebinding.  The chunk's `alen` is
truncated in place by `checkchunkintegral`; the returned mixer and events
pair carries the registry after binding. -/
def Mix_PlayChannelTimed (m : Mixer) (which : Int) (chunk : Option Chunk)
    (loops : Int) (ticks : Int) (now : Nat) : Mixer × Int × List Ev :=
  match chunk with
  | none => (m, -1, [])
  | some c =>
    let alen := checkchunkintegral (frameWidth m) c.alen
    if alen = 0 then (m, -1, [])
    else
      let (m1, which1, evs1) :=
        if which = -1 then
          let i := findFree m
          if i = m.channels.length then (m, (-1 : Int), ([] : List Ev))
          else (m, (i : Int), ([] : List Ev))
        else
          if h : 0 ≤ which ∧ which.toNat < m.channels.length then
            if channelActive (m.channels.get ⟨which.toNat, h.2⟩) then
              let (ch', evs) := channelDonePlaying (m.channels.get ⟨which.toNat, h.2⟩)
              ({ m with channels := m.channels.set which.toNat ch' }, which, evs)
            else (m, which, [])
          else (m, which, [])
      if h1 : 0 ≤ which1 ∧ which1.toNat < m1.channels.length then
        let ch' := bindChunk (m1.channels.get ⟨which1.toNat, h1.2⟩) alen c.volume loops ticks now
        ({ m1 with channels := m1.channels.set which1.toNat ch' }, which1, evs1)
      else
        (m1, which1, evs1)

/-! ## Channel allocation (`Mix_AllocateChannels`, mixer.c lines 576-628) -/

/-- The inert state a newly allocated channel slot is initialized to
(mixer.c lines 607-619).  The C code leaves `samples`, `start_time`,
`fade_length` and `ticks_fade` uninitialized in fresh slots; the model
zeroes them (they are never read before being set, since fresh slots are
inactive). -/
def freshChannel : Channel :=
  { hasChunk := false,
    chunkAlen := 0,
    chunkVolume := 0,
    playing := 0,
    paused := 0,
    samplesPos := 0,
    volume := mixMaxVolume,
    looping := 0,
    tag := -1,
    expire := 0,
    startTime := 0,
    fading := Fading.noFading,
    fadeVolume := mixMaxVolume,
    fadeVolumeReset := mixMaxVolume,
    fadeLength := 0,
    ticksFade := 0,
    effects := [] }

/-- The shrink pre-pass of `Mix_AllocateChannels` applied to one discarded
channel: `Mix_UnregisterAllEffects(i)` (drain the chain) followed by
`Mix_HaltChannel(i)`. -/
def haltDiscarded (ch : Channel) : Channel :=
  (Mix_HaltChannel_locked { ch with effects := [] }).1

/-- `Mix_AllocateChannels(numchans)` with the outcome of the `SDL_realloc`
call supplied as `allocOk`.  Negative or unchanged counts return early; a
shrink first force-stops the discarded tail (before the allocation
attempt); `numchans = 0` frees the array outright; on allocation failure
the array and the channel count are left as they are at that point and the
unchanged count is returned. -/
def Mix_AllocateChannels (m : Mixer) (numchans : Int) (allocOk : Bool) : Mixer × Int :=
  if numchans < 0 ∨ numchans = (m.channels.length : Int) then
    (m, m.channels.length)
  else
    let n := numchans.toNat
    let m1 :=
      if (numchans : Int) < (m.channels.length : Int) then
        { m with channels := m.channels.mapIdx fun i ch => if n ≤ i then haltDiscarded ch else ch }
      else m
    if n = 0 then ({ m1 with channels := [] }, 0)
    else if allocOk then
      if (m1.channels.length : Int) < numchans then
        ({ m1 with channels := m1.channels ++ List.replicate (n - m1.channels.length) freshChannel },
         n)
      else
        ({ m1 with channels := m1.channels.take n }, n)
    else
      (m1, m1.channels.length)

/-! ## Fade-out requests (`Mix_FadeOutChannel`, mixer.c lines 1274-1308) -/

/-- The per-channel body of `Mix_FadeOutChannel` (lines 1288-1303): accepted
only when the channel is playing, has positive volume and is *not* already
fading out; then the ramp base/length/start are set from the current volume
and tick, the reset volume is captured only when not already fading, and
the state becomes `MIX_FADING_OUT`, counting 1. -/
def fadeOutChannel1 (now : Nat) (ms : Int) (ch : Channel) : Channel × Nat :=
  if channelActive ch ∧ 0 < ch.volume ∧ ch.fading ≠ Fading.fadingOut then
    ({ ch with fadeVolume := ch.volume,
               fadeLength := intToU64 ms,
               ticksFade := now,
               fadeVolumeReset := if ch.fading = Fading.noFading then ch.volume else ch.fadeVolumeReset,
               fading := Fading.fadingOut }, 1)
  else (ch, 0)

/-- The `which == -1` loop of `Mix_FadeOutChannel`. -/
def fadeOutAll (now : Nat) (ms : Int) : List Channel → List Channel × Nat
  | [] => ([], 0)
  | ch :: rest =>
      let (ch', s) := fadeOutChannel1 now ms ch
      let (rest', s') := fadeOutAll now ms rest
      (ch' :: rest', s + s')

/-- `Mix_FadeOutChannel(which, ms)`: nothing happens unless the device is
open; `which = -1` applies the per-channel body to every channel summing
the counts; a valid index applies it to that channel; an out-of-range index
counts 0.  (As in `Mix_Volume`, a negative `which` other than -1 would
index out of bounds in C; the model returns 0 unchanged.) -/
def Mix_FadeOutChannel (m : Mixer) (which : Int) (ms : Int) (now : Nat) : Mixer × Nat :=
  if ¬ m.audioOpened then (m, 0)
  else if which = -1 then
    let (chs, s) := fadeOutAll now ms m.channels
    ({ m with channels := chs }, s)
  else if h : 0 ≤ which ∧ which.toNat < m.channels.length then
    let (ch', s) := fadeOutChannel1 now ms (m.channels.get ⟨which.toNat, h.2⟩)
    ({ m with channels := m.channels.set which.toNat ch' }, s)
  else (m, 0)

/-! ## Group queries (`Mix_GroupOldest` / `Mix_GroupNewer`, mixer.c lines
1545-1574) -/

/-- The scan loop of `Mix_GroupOldest`: keep the last channel seen whose tag
matches (or `tag = -1`), which is active, and whose start time is at most
the running minimum; the running minimum starts at the current tick. -/
def groupOldestAux (tag : Int) : List Channel → Nat → Int → Nat → Int
  | [], _, chan, _ => chan
  | ch :: rest, i, chan, mintime =>
      if (ch.tag = tag ∨ tag = -1) ∧ channelActive ch ∧ ch.startTime ≤ mintime then
        groupOldestAux tag rest (i + 1) i ch.startTime
      else
        groupOldestAux tag rest (i + 1) chan mintime

/-- `Mix_GroupOldest(tag)` at current tick `now`. -/
def Mix_GroupOldest (m : Mixer) (tag : Int) (now : Nat) : Int :=
  groupOldestAux tag m.channels 0 (-1) now

/-- The scan loop of `Mix_GroupNewer`: keep the last matching active channel
whose start time is at least the running maximum; the running maximum
starts at 0. -/
def groupNewerAux (tag : Int) : List Channel → Nat → Int → Nat → Int
  | [], _, chan, _ => chan
  | ch :: rest, i, chan, maxtime =>
      if (ch.tag = tag ∨ tag = -1) ∧ channelActive ch ∧ maxtime ≤ ch.startTime then
        groupNewerAux tag rest (i + 1) i ch.startTime
      else
        groupNewerAux tag rest (i + 1) chan maxtime

/-- `Mix_GroupNewer(tag)`. -/
def Mix_GroupNewer (m : Mixer) (tag : Int) : Int :=
  groupNewerAux tag m.channels 0 (-1) 0

/-- A channel's tag matches a group query for `tag` and the channel is
active -- the selection condition shared by the group scans. -/
def matchesTag (tag : Int) (ch : Channel) : Prop :=
  (ch.tag = tag ∨ tag = -1) ∧ channelActive ch

instance (tag : Int) (ch : Channel) : Decidable (matchesTag tag ch) := by
  unfold matchesTag; infer_instance

/-! ## Concrete registry states used by the counterexamples and witnesses -/

/-- A channel in the middle of ordinary playback of a 4-byte chunk. -/
def playingCh : Channel :=
  { freshChannel with hasChunk := true, chunkAlen := 4, chunkVolume := mixMaxVolume,
                      playing := 4, startTime := 10 }

/-- A playing channel currently fading out (ramp started at tick 5 over
1000 ms from volume 64). -/
def fadingOutCh : Channel :=
  { playingCh with volume := 64, fading := Fading.fadingOut, fadeVolume := 64,
                   fadeVolumeReset := 64, fadeLength := 1000, ticksFade := 5 }

/-- A playing channel currently fading in. -/
def fadingInCh : Channel :=
  { playingCh with volume := 32, fading := Fading.fadingIn, fadeVolume := 96,
                   fadeVolumeReset := 96, fadeLength := 1000, ticksFade := 5 }

/-- A playing channel fading out whose fade length came from
`Mix_FadeOutChannel(..., ms = -1000)`: `(Uint64)(-1000) = 2^64 - 1000`.
The ramp started at tick 0 from full volume. -/
def wrapFadeCh : Channel :=
  { playingCh with volume := mixMaxVolume, fading := Fading.fadingOut,
                   fadeVolume := mixMaxVolume, fadeVolumeReset := mixMaxVolume,
                   fadeLength := intToU64 (-1000), ticksFade := 0 }

/-- A fresh 4-byte looped playback state: `loop_count = 2`, cursor at the
chunk start. -/
def loopedCh : Channel := { playingCh with looping := 2 }

/-- An idle two-channel registry on a 16-bit stereo device. -/
def mixer2 : Mixer :=
  { channels := [freshChannel, freshChannel], reservedChannels := 0,
    audioOpened := true, fmt16Bit := true, fmtChannels := 2 }

/-- An idle four-channel registry. -/
def mixer4 : Mixer :=
  { channels := [freshChannel, freshChannel, freshChannel, freshChannel],
    reservedChannels := 0, audioOpened := true, fmt16Bit := true, fmtChannels := 2 }

/-- An idle eight-channel registry with two reserved channels, on a mono
8-bit device (frame width 1). -/
def mixer8r2 : Mixer :=
  { channels := List.replicate 8 freshChannel, reservedChannels := 2,
    audioOpened := true, fmt16Bit := false, fmtChannels := 1 }

/-- A registry whose only channel is idle but whose reserved-channel count
(2) exceeds the allocated count (1) -- reachable by reserving channels and
then shrinking the registry. -/
def mixerShrunk : Mixer :=
  { channels := [freshChannel], reservedChannels := 2,
    audioOpened := true, fmt16Bit := false, fmtChannels := 1 }

/-- A registry whose single channel is fading out. -/
def mixerFadingOut : Mixer :=
  { channels := [fadingOutCh], reservedChannels := 0,
    audioOpened := true, fmt16Bit := false, fmtChannels := 1 }

/-- A registry whose single channel is fading in. -/
def mixerFadingIn : Mixer :=
  { channels := [fadingInCh], reservedChannels := 0,
    audioOpened := true, fmt16Bit := false, fmtChannels := 1 }

/-- A two-channel registry: channel 0 idle, channel 1 playing. -/
def mixerHalf : Mixer :=
  { channels := [freshChannel, playingCh], reservedChannels := 0,
    audioOpened := true, fmt16Bit := false, fmtChannels := 1 }

/-- Two active channels in group 5 with the *same* start timestamp. -/
def mixerTied : Mixer :=
  { channels := [{ playingCh with tag := 5 }, { playingCh with tag := 5 }],
    reservedChannels := 0, audioOpened := true, fmt16Bit := false, fmtChannels := 1 }

/-- Three active channels in group 5 with distinct start timestamps
30, 10, 20. -/
def mixerStaggered : Mixer :=
  { channels := [{ playingCh with tag := 5, startTime := 30 },
                 { playingCh with tag := 5, startTime := 10 },
                 { playingCh with tag := 5, startTime := 20 }],
    reservedChannels := 0, audioOpened := true, fmt16Bit := false, fmtChannels := 1 }

/-- A 4-byte chunk at full volume. -/
def chunk4 : Chunk := { alen := 4, volume := mixMaxVolume }

/-! ## General-purpose helper lemmas -/

theorem list_set_get_self {α : Type} (l : List α) (i : Nat) (h : i < l.length) :
    l.set i (l.get ⟨i, h⟩) = l := by
  apply List.ext_getElem
  · simp
  · intro n h1 h2
    simp only [List.getElem_set]
    split
    · rename_i he; subst he; rfl
    · rfl

theorem usub64_eq (a b : Nat) (hb : b ≤ a) (ha : a < 2 ^ 64) : usub64 a b = a - b := by
  unfold usub64; omega

theorem drainEvents_append (e1 e2 : List EffectInfo) :
    drainEvents (e1 ++ e2) = drainEvents e1 ++ drainEvents e2 := by
  induction e1 with
  | nil => simp [drainEvents]
  | cons a t ih => simp [drainEvents, ih]

/-- `Mix_Volume` at a valid natural channel index reduces to the
per-channel body. -/
theorem Mix_Volume_natIdx (m : Mixer) (c : Nat) (hc : c < m.channels.length) (v : Int) :
    Mix_Volume m (c : Int) v =
      ({ m with channels := m.channels.set c (channelVolumeOp (m.channels.get ⟨c, hc⟩) v).1 },
       (channelVolumeOp (m.channels.get ⟨c, hc⟩) v).2) := by
  unfold Mix_Volume
  rw [if_neg (by omega)]
  rw [dif_pos ⟨by omega, by simpa using hc⟩]
  simp

/-! ## C7: volume set/query round trip -/

/-- The previous-volume result of the per-channel `Mix_Volume` body is the
stored volume, whether or not a store happens. -/
theorem channelVolumeOp_snd (ch : Channel) (v : Int) : (channelVolumeOp ch v).2 = ch.volume := by
  unfold channelVolumeOp
  split <;> rfl

/-- C7: for a valid channel `c` and volume `v ≥ 0`, `Mix_Volume(c, v)`
followed by the query `Mix_Volume(c, -1)` returns `v` when `v ≤
MIX_MAX_VOLUME` and `MIX_MAX_VOLUME` when `v` exceeds it (clamping on
store); and a query never changes the engine state. -/
theorem C7_volume_set_then_query (m : Mixer) (c : Nat) (hc : c < m.channels.length)
    (v : Int) (hv : 0 ≤ v) :
    (v ≤ (mixMaxVolume : Int) →
      (Mix_Volume (Mix_Volume m (c : Int) v).1 (c : Int) (-1)).2 = v.toNat)
    ∧ ((mixMaxVolume : Int) < v →
      (Mix_Volume (Mix_Volume m (c : Int) v).1 (c : Int) (-1)).2 = mixMaxVolume)
    ∧ (Mix_Volume m (c : Int) (-1)).1 = m := by
  have hchs : ((Mix_Volume m (c : Int) v).1).channels =
      m.channels.set c (channelVolumeOp (m.channels.get ⟨c, hc⟩) v).1 := by
    rw [Mix_Volume_natIdx m c hc v]
  have hc2 : c < ((Mix_Volume m (c : Int) v).1).channels.length := by
    rw [hchs]; simpa using hc
  have hget : ((Mix_Volume m (c : Int) v).1).channels.get ⟨c, hc2⟩ =
      (channelVolumeOp (m.channels.get ⟨c, hc⟩) v).1 := by
    simp [hchs]
  refine ⟨?_, ?_, ?_⟩
  · intro hle
    have hng : ¬ ((mixMaxVolume : Int) < v) := not_lt.mpr hle
    rw [Mix_Volume_natIdx _ c hc2 (-1), channelVolumeOp_snd, hget]
    simp [channelVolumeOp, hv, hng]
  · intro hgt
    have hgt' : (128 : Int) < v := by simpa [mixMaxVolume] using hgt
    rw [Mix_Volume_natIdx _ c hc2 (-1), channelVolumeOp_snd, hget]
    simp [channelVolumeOp, hv, hgt', mixMaxVolume]
  · have hid : (channelVolumeOp (m.channels.get ⟨c, hc⟩) (-1)).1 = m.channels.get ⟨c, hc⟩ := by
      unfold channelVolumeOp
      rw [if_neg (by omega)]
    rw [Mix_Volume_natIdx m c hc (-1)]
    show { m with channels := m.channels.set c (channelVolumeOp (m.channels.get ⟨c, hc⟩) (-1)).1 } = m
    rw [hid, list_set_get_self]

/-- C7 witness: the round trip on a concrete two-channel registry, at
volume 64 (in range) and at volume 300 (clamped). -/
theorem C7_volume_set_then_query_witness :
    ((0 : Nat) < mixer2.channels.length ∧ (0 : Int) ≤ 64 ∧ (0 : Int) ≤ 300) ∧
    ((64 : Int) ≤ (mixMaxVolume : Int) →
      (Mix_Volume (Mix_Volume mixer2 ((0 : Nat) : Int) 64).1 ((0 : Nat) : Int) (-1)).2 =
        (64 : Int).toNat) ∧
    (((mixMaxVolume : Int) < 300 →
      (Mix_Volume (Mix_Volume mixer2 ((0 : Nat) : Int) 300).1 ((0 : Nat) : Int) (-1)).2 =
        mixMaxVolume)) :=
  ⟨⟨by decide, by decide, by decide⟩,
   (C7_volume_set_then_query mixer2 0 (by decide) 64 (by decide)).1,
   (C7_volume_set_then_query mixer2 0 (by decide) 300 (by decide)).2.1⟩

/-! ## C9: unregister-all drains the chain in order -/

/-- C9: registering effects `e1` then `e2` appends them in order to the
chain; `unregister_all` on the resulting chain succeeds, fires every
release callback in registration order (`e1`'s first, each exactly once)
and leaves the chain empty; `unregister_all` on an empty chain succeeds
and fires nothing. -/
theorem C9_unregister_all_effects (e : List EffectInfo) (f1 d1 u1 f2 d2 u2 : Nat) :
    Mix_register_effect e (some f1) (some d1) u1 = some (e ++ [⟨f1, some d1, u1⟩])
    ∧ Mix_register_effect (e ++ [⟨f1, some d1, u1⟩]) (some f2) (some d2) u2 =
        some ((e ++ [⟨f1, some d1, u1⟩]) ++ [⟨f2, some d2, u2⟩])
    ∧ Mix_remove_all_effects ((e ++ [⟨f1, some d1, u1⟩]) ++ [⟨f2, some d2, u2⟩]) =
        (true, drainEvents e ++ [Ev.release d1 u1, Ev.release d2 u2], [])
    ∧ Mix_remove_all_effects [⟨f1, some d1, u1⟩, ⟨f2, some d2, u2⟩] =
        (true, [Ev.release d1 u1, Ev.release d2 u2], [])
    ∧ Mix_remove_all_effects [] = (true, [], []) := by
  refine ⟨rfl, rfl, ?_, by simp [Mix_remove_all_effects, drainEvents], rfl⟩
  simp [Mix_remove_all_effects, drainEvents_append, drainEvents]

/-! ## C10: the Mix_GroupChannel range check is off by one -/

/-- C10 (code bug): the range check of `Mix_GroupChannel` is
`which < 0 || which > num_channels`, so `which = num_channels` (here 4,
one past the last valid index 3) is accepted: the call returns success and
performs its tag store at index `num_channels`, outside the allocated
array, where the claim requires failure and no store. -/
theorem C10_group_channel_off_by_one :
    (Mix_GroupChannel mixer4 4 7).2.1 = true
    ∧ (Mix_GroupChannel mixer4 4 7).2.2 = some 4
    ∧ mixer4.channels.length = 4 := by decide

/-! ## C4: fade-out requests on fading / non-playing channels -/

/-- `Mix_FadeOutChannel` at a valid natural channel index reduces to the
per-channel body. -/
theorem Mix_FadeOutChannel_natIdx (m : Mixer) (c : Nat) (hc : c < m.channels.length)
    (ms : Int) (now : Nat) (hopen : m.audioOpened = true) :
    Mix_FadeOutChannel m (c : Int) ms now =
      ({ m with channels := m.channels.set c (fadeOutChannel1 now ms (m.channels.get ⟨c, hc⟩)).1 },
       (fadeOutChannel1 now ms (m.channels.get ⟨c, hc⟩)).2) := by
  unfold Mix_FadeOutChannel
  rw [if_neg (by simp [hopen]), if_neg (by omega), dif_pos ⟨by omega, by simpa using hc⟩]
  simp

/-- C4 counterexample: a playing channel with positive volume that is
already fading *out* satisfies the claim's precondition ("playing with
positive volume and currently fading"), yet the request is rejected: the
guard `fading != MIX_FADING_OUT` fails, the registry is unchanged and the
returned count is 0, where the claim promises a restarted ramp and a count
of 1. -/
theorem C4_fadeout_already_fading_out :
    channelActive fadingOutCh = true
    ∧ 0 < fadingOutCh.volume
    ∧ fadingOutCh.fading = Fading.fadingOut
    ∧ Mix_FadeOutChannel mixerFadingOut 0 2000 100 = (mixerFadingOut, 0) := by decide

/-- C4 amended: a fade-out request on a playing channel with positive
volume that is *not already fading out* (not fading, or fading in) is
accepted -- the ramp restarts from the current volume at the current tick,
the reset volume is captured only if the channel was not fading, the state
becomes fading-out and the channel counts 1; a request on a non-playing
channel, or on a channel already fading out, changes nothing and counts
0. -/
theorem C4_fadeout_request (m : Mixer) (c : Nat) (hc : c < m.channels.length)
    (ms : Int) (now : Nat) (hopen : m.audioOpened = true) :
    (channelActive (m.channels.get ⟨c, hc⟩) ∧ 0 < (m.channels.get ⟨c, hc⟩).volume ∧
       (m.channels.get ⟨c, hc⟩).fading ≠ Fading.fadingOut →
      Mix_FadeOutChannel m (c : Int) ms now =
        ({ m with
            channels := m.channels.set c { m.channels.get ⟨c, hc⟩ with
              fadeVolume := (m.channels.get ⟨c, hc⟩).volume,
              fadeLength := intToU64 ms,
              ticksFade := now,
              fadeVolumeReset :=
                if (m.channels.get ⟨c, hc⟩).fading = Fading.noFading
                then (m.channels.get ⟨c, hc⟩).volume
                else (m.channels.get ⟨c, hc⟩).fadeVolumeReset,
              fading := Fading.fadingOut } }, 1))
    ∧ (¬ channelActive (m.channels.get ⟨c, hc⟩) →
        Mix_FadeOutChannel m (c : Int) ms now = (m, 0))
    ∧ ((m.channels.get ⟨c, hc⟩).fading = Fading.fadingOut →
        Mix_FadeOutChannel m (c : Int) ms now = (m, 0)) := by
  rw [Mix_FadeOutChannel_natIdx m c hc ms now hopen]
  refine ⟨?_, ?_, ?_⟩
  · intro hacc
    unfold fadeOutChannel1
    rw [if_pos hacc]
  · intro hinact
    unfold fadeOutChannel1
    rw [if_neg (fun hcontra => hinact hcontra.1)]
    rw [list_set_get_self]
  · intro hfo
    unfold fadeOutChannel1
    rw [if_neg (fun hcontra => hcontra.2.2 hfo)]
    rw [list_set_get_self]

/-- C4 witness: a fading-in channel at volume 32 accepts the fade-out and
restarts the ramp from volume 32 at tick 100. -/
theorem C4_fadeout_request_witness :
    (mixerFadingIn.audioOpened = true
      ∧ (0 : Nat) < mixerFadingIn.channels.length
      ∧ channelActive fadingInCh = true ∧ 0 < fadingInCh.volume
      ∧ fadingInCh.fading ≠ Fading.fadingOut)
    ∧ Mix_FadeOutChannel mixerFadingIn ((0 : Nat) : Int) 2000 100 =
        ({ mixerFadingIn with channels := [{ fadingInCh with
              fadeVolume := 32, fadeLength := 2000, ticksFade := 100,
              fading := Fading.fadingOut }] }, 1) :=
  ⟨⟨rfl, by decide, by decide, by decide, by decide⟩,
   ((C4_fadeout_request mixerFadingIn 0 (by decide) 2000 100 rfl).1 (by decide)).trans (by decide)⟩

/-! ## C6: allocation failure in Mix_AllocateChannels -/

/-- What `Mix_AllocateChannels` does when the allocation fails (possible
only for a positive count different from the current one): the returned
count is the old one; on a shrink the discarded tail has already been
force-stopped. -/
theorem Mix_AllocateChannels_fail (m : Mixer) (numchans : Int) (h0 : 0 < numchans)
    (hne : numchans ≠ (m.channels.length : Int)) :
    Mix_AllocateChannels m numchans false =
      (if numchans < (m.channels.length : Int) then
         { m with channels := m.channels.mapIdx fun i ch =>
             if numchans.toNat ≤ i then haltDiscarded ch else ch }
       else m,
       (m.channels.length : Int)) := by
  have hn0 : ¬ (numchans.toNat = 0) := by omega
  unfold Mix_AllocateChannels
  rw [if_neg (by omega)]
  by_cases hlt : numchans < (m.channels.length : Int)
  · simp only [if_pos hlt, if_neg hn0, Bool.false_eq_true, if_false]
    simp
  · simp only [if_neg hlt, if_neg hn0, Bool.false_eq_true, if_false]

/-- C6 counterexample: shrinking from 2 channels to 1 with the `realloc`
failing is *not* a no-op: the returned count is the unchanged 2, but the
discarded channel 1 (which was playing 4 bytes) has already been
force-stopped by the pre-pass that runs before the allocation attempt. -/
theorem C6_allocate_failure_not_noop :
    (Mix_AllocateChannels mixerHalf 1 false).2 = 2
    ∧ (Mix_AllocateChannels mixerHalf 1 false).1 ≠ mixerHalf
    ∧ (Mix_AllocateChannels mixerHalf 1 false).1.channels.map Channel.playing = [0, 0]
    ∧ mixerHalf.channels.map Channel.playing = [0, 4] := by decide

/-- C6 amended: when the allocation for `Mix_AllocateChannels(numchans)`
fails (numchans positive and different from the current count, otherwise
the allocation is never attempted), the channel count is unchanged and
returned and no new array is installed; a growing request is then a
complete no-op, but a shrinking request has already force-stopped the
discarded tail channels (releasing their effects and restoring faded
volumes) before the allocation attempt, and those mutations persist. -/
theorem C6_allocate_failure (m : Mixer) (numchans : Int) (h0 : 0 < numchans)
    (hne : numchans ≠ (m.channels.length : Int)) :
    ((Mix_AllocateChannels m numchans false).2 = (m.channels.length : Int))
    ∧ ((Mix_AllocateChannels m numchans false).1.channels.length = m.channels.length)
    ∧ ((m.channels.length : Int) < numchans →
        Mix_AllocateChannels m numchans false = (m, (m.channels.length : Int)))
    ∧ (numchans < (m.channels.length : Int) →
        (Mix_AllocateChannels m numchans false).1 =
          { m with channels := m.channels.mapIdx fun i ch =>
              if numchans.toNat ≤ i then haltDiscarded ch else ch }) := by
  rw [Mix_AllocateChannels_fail m numchans h0 hne]
  by_cases hlt : numchans < (m.channels.length : Int)
  · rw [if_pos hlt]
    refine ⟨rfl, by simp, by omega, fun _ => rfl⟩
  · rw [if_neg hlt]
    exact ⟨rfl, rfl, fun _ => rfl, by omega⟩

/-- C6 witness: the shrink instance of the amended statement at the
concrete two-channel registry. -/
theorem C6_allocate_failure_witness :
    ((0 : Int) < 1 ∧ (1 : Int) ≠ (mixerHalf.channels.length : Int))
    ∧ ((Mix_AllocateChannels mixerHalf 1 false).2 = (mixerHalf.channels.length : Int))
    ∧ ((Mix_AllocateChannels mixerHalf 1 false).1 =
        { mixerHalf with channels := mixerHalf.channels.mapIdx fun i ch =>
            if (1 : Int).toNat ≤ i then haltDiscarded ch else ch }) :=
  ⟨⟨by decide, by decide⟩,
   (C6_allocate_failure mixerHalf 1 (by decide) (by decide)).1,
   (C6_allocate_failure mixerHalf 1 (by decide) (by decide)).2.2.2 (by decide)⟩

/-! ## C3: automatic channel assignment -/

/-- If every channel of the scanned suffix is active the scan loop runs off
the end, returning the start index plus the suffix length. -/
theorem findFreeAux_all_active (l : List Channel) (i : Nat)
    (hall : ∀ k (hk : k < l.length), channelActive (l.get ⟨k, hk⟩)) :
    findFreeAux l i = i + l.length := by
  induction l generalizing i with
  | nil => simp [findFreeAux]
  | cons ch rest ih =>
    unfold findFreeAux
    rw [if_pos (by simpa using hall 0 (by simp))]
    rw [ih (i + 1) (fun k hk => by simpa using hall (k + 1) (by simpa using hk))]
    simp
    omega

/-- The scan loop stops at the first inactive channel of the suffix. -/
theorem findFreeAux_first_free (l : List Channel) (i k : Nat) (hk : k < l.length)
    (hfree : ¬ channelActive (l.get ⟨k, hk⟩))
    (hbefore : ∀ j (hj : j < l.length), j < k → channelActive (l.get ⟨j, hj⟩)) :
    findFreeAux l i = i + k := by
  induction l generalizing i k with
  | nil => exact absurd hk (by simp)
  | cons ch rest ih =>
    cases k with
    | zero =>
      unfold findFreeAux
      rw [if_neg (by simpa using hfree)]
      simp
    | succ k' =>
      have hhead : channelActive ch := by simpa using hbefore 0 (by simp) (by omega)
      unfold findFreeAux
      rw [if_pos hhead]
      rw [ih (i + 1) k' (by simpa using hk) (by simpa using hfree)
        (fun j hj hjk => by simpa using hbefore (j + 1) (by simpa using hj) (by omega))]
      omega

/-- `Mix_PlayChannelTimed` with automatic assignment and a chunk surviving
truncation: the outcome is determined by where the free-channel scan
stops.  Strictly inside the registry: that channel is bound and returned;
exactly at the registry length: failure -1 with nothing bound; beyond the
length (only possible when `reserved_channels` exceeds the allocated
count): the scan start index is returned and nothing is bound. -/
theorem Mix_PlayChannelTimed_auto (m : Mixer) (c : Chunk) (loops ticks : Int) (now : Nat)
    (halen : checkchunkintegral (frameWidth m) c.alen ≠ 0) :
    Mix_PlayChannelTimed m (-1) (some c) loops ticks now =
      if h : findFree m < m.channels.length then
        ({ m with channels := m.channels.set (findFree m) (bindChunk (m.channels.get ⟨findFree m, h⟩) (checkchunkintegral (frameWidth m) c.alen) c.volume loops ticks now) }, ((findFree m : Nat) : Int), [])
      else
        (m, if findFree m = m.channels.length then -1 else ((findFree m : Nat) : Int), []) := by
  by_cases hlt : findFree m < m.channels.length
  · have hne : ¬ (findFree m = m.channels.length) := by omega
    rw [dif_pos hlt]
    simp only [Mix_PlayChannelTimed]
    simp [halen, hne, hlt]
  · by_cases heq : findFree m = m.channels.length
    · rw [dif_neg hlt, if_pos heq]
      simp only [Mix_PlayChannelTimed]
      simp [halen, heq]
    · rw [dif_neg hlt, if_neg heq]
      simp only [Mix_PlayChannelTimed]
      simp [halen, heq, hlt]

/-- C3 counterexample: a registry with a single idle channel but
`reserved_channels = 2` (reachable by reserving channels and then
shrinking the registry).  Every channel of the scan range [2, 1) is
vacuously playing, so the claim demands failure -1; the code instead
returns 2 -- the scan's start index, an out-of-range channel -- while
binding nothing. -/
theorem C3_reserved_beyond_range :
    mixerShrunk.reservedChannels = 2 ∧ mixerShrunk.channels.length = 1
    ∧ channelActive freshChannel = false
    ∧ Mix_PlayChannelTimed mixerShrunk (-1) (some chunk4) 0 (-1) 100 = (mixerShrunk, 2, []) := by
  decide

/-- C3 amended: provided `reserved_channels ≤ num_channels`, automatic
assignment scans indices in order from `reserved_channels` and binds the
(truncated) chunk to the first non-playing channel, returning its index;
if every channel in the range is playing it returns -1 and binds nothing.
(When `reserved_channels` exceeds the allocated count the code instead
returns `reserved_channels` itself, binding nothing.) -/
theorem C3_autoplay (m : Mixer) (c : Chunk) (loops ticks : Int) (now : Nat)
    (hr : m.reservedChannels ≤ m.channels.length)
    (halen : checkchunkintegral (frameWidth m) c.alen ≠ 0) :
    ((∀ i (hi : i < m.channels.length), m.reservedChannels ≤ i →
        channelActive (m.channels.get ⟨i, hi⟩)) →
      Mix_PlayChannelTimed m (-1) (some c) loops ticks now = (m, -1, []))
    ∧ (∀ j (hj : j < m.channels.length), m.reservedChannels ≤ j →
        ¬ channelActive (m.channels.get ⟨j, hj⟩) →
        (∀ i (hi : i < m.channels.length), m.reservedChannels ≤ i → i < j →
          channelActive (m.channels.get ⟨i, hi⟩)) →
        Mix_PlayChannelTimed m (-1) (some c) loops ticks now =
          ({ m with channels := m.channels.set j (bindChunk (m.channels.get ⟨j, hj⟩) (checkchunkintegral (frameWidth m) c.alen) c.volume loops ticks now) }, ((j : Nat) : Int), [])) := by
  constructor
  · intro hall
    have hfree : findFree m = m.channels.length := by
      unfold findFree
      have hall' : ∀ k (hk : k < (m.channels.drop m.reservedChannels).length),
          channelActive ((m.channels.drop m.reservedChannels).get ⟨k, hk⟩) := by
        intro k hk
        have hk' : m.reservedChannels + k < m.channels.length := by
          simp at hk
          omega
        have hgd : (m.channels.drop m.reservedChannels).get ⟨k, hk⟩ =
            m.channels.get ⟨m.reservedChannels + k, hk'⟩ := by
          simp [List.getElem_drop]
        rw [hgd]
        exact hall _ hk' (by omega)
      rw [findFreeAux_all_active _ _ hall']
      simp only [List.length_drop]
      omega
    rw [Mix_PlayChannelTimed_auto m c loops ticks now halen]
    rw [dif_neg (by omega)]
    rw [if_pos hfree]
  · intro j hj hrj hfree hbefore
    have hfound : findFree m = j := by
      unfold findFree
      have hk : j - m.reservedChannels < (m.channels.drop m.reservedChannels).length := by
        simp
        omega
      have hgd : (m.channels.drop m.reservedChannels).get ⟨j - m.reservedChannels, hk⟩ =
          m.channels.get ⟨j, hj⟩ := by
        have hradd : m.reservedChannels + (j - m.reservedChannels) = j := by omega
        simp only [List.get_eq_getElem, List.getElem_drop]
        congr 1
      have hbefore' : ∀ j' (hj' : j' < (m.channels.drop m.reservedChannels).length),
          j' < j - m.reservedChannels →
          channelActive ((m.channels.drop m.reservedChannels).get ⟨j', hj'⟩) := by
        intro j' hj' hlt'
        have hj'' : m.reservedChannels + j' < m.channels.length := by
          simp at hj'
          omega
        have hgd' : (m.channels.drop m.reservedChannels).get ⟨j', hj'⟩ =
            m.channels.get ⟨m.reservedChannels + j', hj''⟩ := by
          simp [List.getElem_drop]
        rw [hgd']
        exact hbefore _ hj'' (by omega) (by omega)
      rw [findFreeAux_first_free _ _ (j - m.reservedChannels) hk (hgd ▸ hfree) hbefore']
      omega
    rw [Mix_PlayChannelTimed_auto m c loops ticks now halen]
    subst hfound
    rw [dif_pos hj]

/-- C3 witness: eight idle channels, two reserved -- automatic assignment
picks channel 2 and binds the chunk there. -/
theorem C3_autoplay_witness :
    (mixer8r2.reservedChannels ≤ mixer8r2.channels.length
      ∧ checkchunkintegral (frameWidth mixer8r2) chunk4.alen ≠ 0
      ∧ (2 : Nat) < mixer8r2.channels.length
      ∧ mixer8r2.reservedChannels ≤ 2
      ∧ ¬ channelActive freshChannel)
    ∧ Mix_PlayChannelTimed mixer8r2 (-1) (some chunk4) 0 (-1) 100 =
        ({ mixer8r2 with channels := mixer8r2.channels.set 2 (bindChunk freshChannel 4 mixMaxVolume 0 (-1) 100) }, 2, []) :=
  ⟨⟨by decide, by decide, by decide, by decide, by decide⟩, by
    have h := (C3_autoplay mixer8r2 chunk4 0 (-1) 100 (by decide) (by decide)).2 2 (by decide)
      (by decide) (by decide) (fun i hi hri hlt => absurd hlt (not_lt.mpr (le_trans (by decide : 2 ≤ mixer8r2.reservedChannels) hri)))
    exact h.trans (by decide)⟩

/-! ## C5: group oldest / newest queries -/

/-- Full characterization of the `Mix_GroupOldest` scan loop from an
arbitrary accumulator: either no matching active channel of the scanned
list has a start time within the running minimum, and the accumulator is
returned; or the result is the *last* (highest-index) matching active
channel achieving the minimal start time at most `mintime`. -/
theorem groupOldestAux_correct (tag : Int) (chs : List Channel) (i : Nat) (chan : Int)
    (mintime : Nat) :
    (groupOldestAux tag chs i chan mintime = chan ∧
      (∀ k (hk : k < chs.length), matchesTag tag (chs.get ⟨k, hk⟩) →
        mintime < (chs.get ⟨k, hk⟩).startTime))
    ∨ (∃ k, ∃ hk : k < chs.length,
        groupOldestAux tag chs i chan mintime = ((i + k : Nat) : Int) ∧
        matchesTag tag (chs.get ⟨k, hk⟩) ∧
        (chs.get ⟨k, hk⟩).startTime ≤ mintime ∧
        (∀ j (hj : j < chs.length), matchesTag tag (chs.get ⟨j, hj⟩) →
          (chs.get ⟨j, hj⟩).startTime ≤ mintime →
          ((chs.get ⟨k, hk⟩).startTime ≤ (chs.get ⟨j, hj⟩).startTime ∧
            ((chs.get ⟨j, hj⟩).startTime ≤ (chs.get ⟨k, hk⟩).startTime → j ≤ k)))) := by
  induction chs generalizing i chan mintime with
  | nil =>
    left
    exact ⟨rfl, fun k hk => absurd hk (by simp)⟩
  | cons ch rest ih =>
    by_cases hsel : (ch.tag = tag ∨ tag = -1) ∧ channelActive ch ∧ ch.startTime ≤ mintime
    · have heq : groupOldestAux tag (ch :: rest) i chan mintime =
          groupOldestAux tag rest (i + 1) i ch.startTime := by
        simp only [groupOldestAux]
        rw [if_pos hsel]
      rcases ih (i + 1) (i : Int) ch.startTime with ⟨hres, hnone⟩ | ⟨k', hk', hres, hm, hle, hmin⟩
      · right
        refine ⟨0, by simp, ?_, ⟨hsel.1, hsel.2.1⟩, hsel.2.2, ?_⟩
        · rw [heq, hres]; simp
        · intro j hj hmj hlej
          cases j with
          | zero => exact ⟨le_refl _, fun _ => le_refl 0⟩
          | succ j' =>
            have hj' : j' < rest.length := by simpa using hj
            have hlt : ch.startTime < (rest.get ⟨j', hj'⟩).startTime := hnone j' hj' hmj
            exact ⟨le_of_lt hlt, fun hba => absurd hba (not_le.mpr hlt)⟩
      · right
        refine ⟨k' + 1, by simpa using hk', ?_, hm, le_trans hle hsel.2.2, ?_⟩
        · rw [heq, hres]; omega
        · intro j hj hmj hlej
          cases j with
          | zero =>
            exact ⟨hle, fun _ => Nat.zero_le _⟩
          | succ j' =>
            have hj' : j' < rest.length := by simpa using hj
            by_cases hj'le : (rest.get ⟨j', hj'⟩).startTime ≤ ch.startTime
            · have h2 := hmin j' hj' hmj hj'le
              exact ⟨h2.1, fun hba => Nat.succ_le_succ (h2.2 hba)⟩
            · have hlt : ch.startTime < (rest.get ⟨j', hj'⟩).startTime := not_le.mp hj'le
              have hlt2 : (rest.get ⟨k', hk'⟩).startTime < (rest.get ⟨j', hj'⟩).startTime :=
                lt_of_le_of_lt hle hlt
              exact ⟨le_of_lt hlt2, fun hba => absurd hba (not_le.mpr hlt2)⟩
    · have heq : groupOldestAux tag (ch :: rest) i chan mintime =
          groupOldestAux tag rest (i + 1) chan mintime := by
        simp only [groupOldestAux]
        rw [if_neg hsel]
      rcases ih (i + 1) chan mintime with ⟨hres, hnone⟩ | ⟨k', hk', hres, hm, hle, hmin⟩
      · left
        refine ⟨heq ▸ hres, ?_⟩
        intro k hk hmk
        cases k with
        | zero =>
          by_contra hc
          exact hsel ⟨hmk.1, hmk.2, not_lt.mp hc⟩
        | succ k2 =>
          have hk2 : k2 < rest.length := by simpa using hk
          exact hnone k2 hk2 hmk
      · right
        refine ⟨k' + 1, by simpa using hk', ?_, hm, hle, ?_⟩
        · rw [heq, hres]; omega
        · intro j hj hmj hlej
          cases j with
          | zero => exact absurd ⟨hmj.1, hmj.2, hlej⟩ hsel
          | succ j' =>
            have hj' : j' < rest.length := by simpa using hj
            have h2 := hmin j' hj' hmj hlej
            exact ⟨h2.1, fun hba => Nat.succ_le_succ (h2.2 hba)⟩

/-- Full characterization of the `Mix_GroupNewer` scan loop: either no
matching active channel has a start time at least the running maximum and
the accumulator is returned, or the result is the last (highest-index)
matching active channel achieving the maximal start time. -/
theorem groupNewerAux_correct (tag : Int) (chs : List Channel) (i : Nat) (chan : Int)
    (maxtime : Nat) :
    (groupNewerAux tag chs i chan maxtime = chan ∧
      (∀ k (hk : k < chs.length), matchesTag tag (chs.get ⟨k, hk⟩) →
        (chs.get ⟨k, hk⟩).startTime < maxtime))
    ∨ (∃ k, ∃ hk : k < chs.length,
        groupNewerAux tag chs i chan maxtime = ((i + k : Nat) : Int) ∧
        matchesTag tag (chs.get ⟨k, hk⟩) ∧
        maxtime ≤ (chs.get ⟨k, hk⟩).startTime ∧
        (∀ j (hj : j < chs.length), matchesTag tag (chs.get ⟨j, hj⟩) →
          maxtime ≤ (chs.get ⟨j, hj⟩).startTime →
          ((chs.get ⟨j, hj⟩).startTime ≤ (chs.get ⟨k, hk⟩).startTime ∧
            ((chs.get ⟨k, hk⟩).startTime ≤ (chs.get ⟨j, hj⟩).startTime → j ≤ k)))) := by
  induction chs generalizing i chan maxtime with
  | nil =>
    left
    exact ⟨rfl, fun k hk => absurd hk (by simp)⟩
  | cons ch rest ih =>
    by_cases hsel : (ch.tag = tag ∨ tag = -1) ∧ channelActive ch ∧ maxtime ≤ ch.startTime
    · have heq : groupNewerAux tag (ch :: rest) i chan maxtime =
          groupNewerAux tag rest (i + 1) i ch.startTime := by
        simp only [groupNewerAux]
        rw [if_pos hsel]
      rcases ih (i + 1) (i : Int) ch.startTime with ⟨hres, hnone⟩ | ⟨k', hk', hres, hm, hle, hmin⟩
      · right
        refine ⟨0, by simp, ?_, ⟨hsel.1, hsel.2.1⟩, hsel.2.2, ?_⟩
        · rw [heq, hres]; simp
        · intro j hj hmj hlej
          cases j with
          | zero => exact ⟨le_refl _, fun _ => le_refl 0⟩
          | succ j' =>
            have hj' : j' < rest.length := by simpa using hj
            have hlt : (rest.get ⟨j', hj'⟩).startTime < ch.startTime := hnone j' hj' hmj
            exact ⟨le_of_lt hlt, fun hba => absurd hba (not_le.mpr hlt)⟩
      · right
        refine ⟨k' + 1, by simpa using hk', ?_, hm, le_trans hsel.2.2 hle, ?_⟩
        · rw [heq, hres]; omega
        · intro j hj hmj hlej
          cases j with
          | zero =>
            exact ⟨hle, fun _ => Nat.zero_le _⟩
          | succ j' =>
            have hj' : j' < rest.length := by simpa using hj
            by_cases hj'le : ch.startTime ≤ (rest.get ⟨j', hj'⟩).startTime
            · have h2 := hmin j' hj' hmj hj'le
              exact ⟨h2.1, fun hba => Nat.succ_le_succ (h2.2 hba)⟩
            · have hlt : (rest.get ⟨j', hj'⟩).startTime < ch.startTime := not_le.mp hj'le
              have hlt2 : (rest.get ⟨j', hj'⟩).startTime < (rest.get ⟨k', hk'⟩).startTime :=
                lt_of_lt_of_le hlt hle
              exact ⟨le_of_lt hlt2, fun hba => absurd hba (not_le.mpr hlt2)⟩
    · have heq : groupNewerAux tag (ch :: rest) i chan maxtime =
          groupNewerAux tag rest (i + 1) chan maxtime := by
        simp only [groupNewerAux]
        rw [if_neg hsel]
      rcases ih (i + 1) chan maxtime with ⟨hres, hnone⟩ | ⟨k', hk', hres, hm, hle, hmin⟩
      · left
        refine ⟨heq ▸ hres, ?_⟩
        intro k hk hmk
        cases k with
        | zero =>
          by_contra hc
          exact hsel ⟨hmk.1, hmk.2, not_lt.mp hc⟩
        | succ k2 =>
          have hk2 : k2 < rest.length := by simpa using hk
          exact hnone k2 hk2 hmk
      · right
        refine ⟨k' + 1, by simpa using hk', ?_, hm, hle, ?_⟩
        · rw [heq, hres]; omega
        · intro j hj hmj hlej
          cases j with
          | zero => exact absurd ⟨hmj.1, hmj.2, hlej⟩ hsel
          | succ j' =>
            have hj' : j' < rest.length := by simpa using hj
            have h2 := hmin j' hj' hmj hlej
            exact ⟨h2.1, fun hba => Nat.succ_le_succ (h2.2 hba)⟩

/-- C5 counterexample: two active channels in group 5 share start
timestamp 10; the claim says `group_oldest` breaks the tie toward the
lowest channel index (0), but the scan's `<=` comparison keeps replacing
the candidate, returning the highest tied index (1). -/
theorem C5_oldest_tie_highest :
    matchesTag 5 (mixerTied.channels.get ⟨0, by decide⟩)
    ∧ matchesTag 5 (mixerTied.channels.get ⟨1, by decide⟩)
    ∧ (mixerTied.channels.get ⟨0, by decide⟩).startTime =
        (mixerTied.channels.get ⟨1, by decide⟩).startTime
    ∧ Mix_GroupOldest mixerTied 5 100 = 1 := by
  refine ⟨⟨by decide, by decide⟩, ⟨by decide, by decide⟩, by decide, by decide⟩

/-- C5 amended: over active matching channels (all of whose start times
are at most the current tick, as is the case for timestamps taken in the
past), `group_oldest` returns the index of a minimal-start-time channel
and `group_newest` of a maximal-start-time one; when several share the
extremal start time, *both* return the highest such channel index (the
claim said lowest for `group_oldest`); with no matching active channel
both return -1. -/
theorem C5_group_oldest_newest (m : Mixer) (tag : Int) (now : Nat)
    (hnow : ∀ k (hk : k < m.channels.length), matchesTag tag (m.channels.get ⟨k, hk⟩) →
      (m.channels.get ⟨k, hk⟩).startTime ≤ now) :
    ((∀ k (hk : k < m.channels.length), ¬ matchesTag tag (m.channels.get ⟨k, hk⟩)) →
      Mix_GroupOldest m tag now = -1 ∧ Mix_GroupNewer m tag = -1)
    ∧ (∀ k0 (hk0 : k0 < m.channels.length), matchesTag tag (m.channels.get ⟨k0, hk0⟩) →
        (∃ k, ∃ hk : k < m.channels.length,
          Mix_GroupOldest m tag now = ((k : Nat) : Int) ∧
          matchesTag tag (m.channels.get ⟨k, hk⟩) ∧
          (∀ j (hj : j < m.channels.length), matchesTag tag (m.channels.get ⟨j, hj⟩) →
            ((m.channels.get ⟨k, hk⟩).startTime ≤ (m.channels.get ⟨j, hj⟩).startTime ∧
              ((m.channels.get ⟨j, hj⟩).startTime ≤ (m.channels.get ⟨k, hk⟩).startTime → j ≤ k))))
        ∧ (∃ k, ∃ hk : k < m.channels.length,
          Mix_GroupNewer m tag = ((k : Nat) : Int) ∧
          matchesTag tag (m.channels.get ⟨k, hk⟩) ∧
          (∀ j (hj : j < m.channels.length), matchesTag tag (m.channels.get ⟨j, hj⟩) →
            ((m.channels.get ⟨j, hj⟩).startTime ≤ (m.channels.get ⟨k, hk⟩).startTime ∧
              ((m.channels.get ⟨k, hk⟩).startTime ≤ (m.channels.get ⟨j, hj⟩).startTime → j ≤ k))))) := by
  constructor
  · intro hnone
    constructor
    · rcases groupOldestAux_correct tag m.channels 0 (-1) now with ⟨hres, _⟩ | ⟨k, hk, _, hm, _, _⟩
      · exact hres
      · exact absurd hm (hnone k hk)
    · rcases groupNewerAux_correct tag m.channels 0 (-1) 0 with ⟨hres, _⟩ | ⟨k, hk, _, hm, _, _⟩
      · exact hres
      · exact absurd hm (hnone k hk)
  · intro k0 hk0 hm0
    constructor
    · rcases groupOldestAux_correct tag m.channels 0 (-1) now with ⟨_, hnone⟩ | ⟨k, hk, hres, hm, _, hmin⟩
      · exact absurd (hnow k0 hk0 hm0) (not_le.mpr (hnone k0 hk0 hm0))
      · refine ⟨k, hk, by simpa using hres, hm, ?_⟩
        intro j hj hmj
        exact hmin j hj hmj (hnow j hj hmj)
    · rcases groupNewerAux_correct tag m.channels 0 (-1) 0 with ⟨_, hnone⟩ | ⟨k, hk, hres, hm, _, hmax⟩
      · exact absurd (Nat.zero_le _) (not_le.mpr (hnone k0 hk0 hm0))
      · refine ⟨k, hk, by simpa using hres, hm, ?_⟩
        intro j hj hmj
        exact hmax j hj hmj (Nat.zero_le _)

/-- C5 witness: three active group-5 channels with distinct start times
30, 10, 20 -- oldest is channel 1 (start 10), newest channel 0
(start 30). -/
theorem C5_group_oldest_newest_witness :
    (∀ k (hk : k < mixerStaggered.channels.length),
        matchesTag 5 (mixerStaggered.channels.get ⟨k, hk⟩) →
        (mixerStaggered.channels.get ⟨k, hk⟩).startTime ≤ 100)
    ∧ Mix_GroupOldest mixerStaggered 5 100 = 1
    ∧ Mix_GroupNewer mixerStaggered 5 = 0 :=
  ⟨by decide, by
    obtain ⟨k, hk, hres, hm, hmin⟩ :=
      ((C5_group_oldest_newest mixerStaggered 5 100 (by decide)).2 0 (by decide) (by decide)).1
    have hA := (hmin 1 (by decide) (by decide)).1
    have hk3 : k < 3 := by simpa [mixerStaggered] using hk
    interval_cases k
    · simp [mixerStaggered, playingCh] at hA
    · simpa using hres
    · simp [mixerStaggered, playingCh] at hA
   , by
    obtain ⟨k, hk, hres, hm, hmax⟩ :=
      ((C5_group_oldest_newest mixerStaggered 5 100 (by decide)).2 0 (by decide) (by decide)).2
    have h0 := (hmax 0 (by decide) (by decide)).1
    have hk3 : k < 3 := by simpa [mixerStaggered] using hk
    interval_cases k
    · simpa using hres
    · simp [mixerStaggered, playingCh] at h0
    · simp [mixerStaggered, playingCh] at h0⟩

/-- With enough fuel the fuel-indexed first loop is the first loop. -/
theorem mixLoop1F_eq (fuel : Nat) (ch : Channel) (len index : Nat)
    (h : len - index ≤ fuel) :
    mixLoop1F fuel ch len index = mixLoop1 ch len index := by
  induction fuel generalizing ch index with
  | zero =>
    rw [mixLoop1.eq_def, dif_neg (by omega)]
    rfl
  | succ n ih =>
    rw [mixLoop1.eq_def]
    by_cases hc : 0 < ch.playing ∧ index < len
    · rw [dif_pos hc]
      simp only [mixLoop1F]
      rw [if_pos hc]
      have hmix : 0 < min ch.playing (len - index) :=
        lt_min hc.1 (Nat.sub_pos_of_lt hc.2)
      rw [ih _ _ (by omega)]
    · rw [dif_neg hc]
      simp only [mixLoop1F]
      rw [if_neg hc]

/-- With enough fuel the fuel-indexed wraparound loop is the wraparound
loop. -/
theorem mixLoop2F_eq (fuel : Nat) (ch : Channel) (len index : Nat)
    (h : len - index ≤ fuel) :
    mixLoop2F fuel ch len index = mixLoop2 ch len index := by
  induction fuel generalizing ch index with
  | zero =>
    rw [mixLoop2.eq_def, dif_neg (by omega)]
    rfl
  | succ n ih =>
    rw [mixLoop2.eq_def]
    by_cases hc : ch.looping ≠ 0 ∧ index < len ∧ 0 < ch.chunkAlen
    · rw [dif_pos hc]
      simp only [mixLoop2F]
      rw [if_pos hc]
      have hmix : 0 < min (len - index) ch.chunkAlen :=
        lt_min (Nat.sub_pos_of_lt hc.2.1) hc.2.2
      rw [ih _ _ (by omega)]
    · rw [dif_neg hc]
      simp only [mixLoop2F]
      rw [if_neg hc]

/-- The fuel-indexed render phase is the render phase. -/
theorem renderChannelF_eq (ch : Channel) (len : Nat) :
    renderChannelF ch len = renderChannel ch len := by
  unfold renderChannelF renderChannel
  dsimp only
  rw [mixLoop1F_eq (len + 1) ch len 0 (by omega)]
  rw [mixLoop2F_eq (len + 1) (mixLoop1 ch len 0).1 len (mixLoop1 ch len 0).2.1 (by omega)]

/-- The fuel-indexed callback body is the callback body. -/
theorem mixTickChannelF_eq (now len : Nat) (ch : Channel) :
    mixTickChannelF now len ch = mixTickChannel now len ch := by
  unfold mixTickChannelF mixTickChannel
  dsimp only
  rw [renderChannelF_eq]

/-! ## C1: fade-out ramp and completion in the mixing callback -/

/-- One step of the first render loop never changes the channel volume. -/
theorem mixStep1_volume (ch : Channel) (mixable : Nat) :
    (mixStep1 ch mixable).1.volume = ch.volume := by
  unfold mixStep1
  dsimp only
  split
  · simp [channelDonePlaying]
  · rfl

/-- The first render loop never changes the channel volume. -/
theorem mixLoop1_volume (ch : Channel) (len index : Nat) :
    (mixLoop1 ch len index).1.volume = ch.volume := by
  induction ch, len, index using mixLoop1.induct with
  | case1 ch len index h mixable res ih =>
    rw [mixLoop1.eq_def, dif_pos h]
    dsimp only
    unfold_let res mixable at ih
    rw [ih, mixStep1_volume]
  | case2 ch len index h =>
    rw [mixLoop1.eq_def, dif_neg h]

/-- The loop-wraparound loop never changes the channel volume. -/
theorem mixLoop2_volume (ch : Channel) (len index : Nat) :
    (mixLoop2 ch len index).1.volume = ch.volume := by
  induction ch, len, index using mixLoop2.induct with
  | case1 ch len index h remaining ch1 ih =>
    rw [mixLoop2.eq_def, dif_pos h]
    dsimp only
    unfold_let ch1 remaining at ih
    exact ih
  | case2 ch len index h =>
    rw [mixLoop2.eq_def, dif_neg h]

/-- The render phase never changes the channel volume. -/
theorem renderChannel_volume (ch : Channel) (len : Nat) :
    (renderChannel ch len).1.volume = ch.volume := by
  unfold renderChannel
  split
  · dsimp only
    split
    · exact (mixLoop2_volume _ _ _).trans (mixLoop1_volume _ _ _)
    · exact (mixLoop2_volume _ _ _).trans (mixLoop1_volume _ _ _)
  · rfl

/-- Storing a volume already within range through the `Mix_Volume` body
stores it unclamped. -/
theorem channelVolumeOp_natCast (ch : Channel) (v : Nat) (hv : v ≤ mixMaxVolume) :
    (channelVolumeOp ch (v : Int)).1 = { ch with volume := v } := by
  unfold channelVolumeOp
  rw [if_pos (Int.natCast_nonneg v), if_neg (not_lt.mpr (by exact_mod_cast hv))]
  simp

/-- The linear fade ramp never exceeds the fade base volume. -/
theorem fade_ramp_le (V D t : Nat) (hD : 0 < D) : V * (D - t) / D ≤ V := by
  calc V * (D - t) / D ≤ V * D / D :=
        Nat.div_le_div_right (Nat.mul_le_mul_left _ (Nat.sub_le _ _))
    _ = V := Nat.mul_div_left V hD

/-- The 64-bit-wrapped fade ramp never exceeds `MIX_MAX_VOLUME`: either
the product does not wrap and the ramp is at most the fade base volume, or
the fade length is at least 2^57 and the wrapped quotient stays below
128. -/
theorem wrapped_ramp_le (V D t : Nat) (hV : V ≤ mixMaxVolume) (hD : 0 < D) :
    V * (D - t) % 2 ^ 64 / D ≤ mixMaxVolume := by
  by_cases hw : V * (D - t) < 2 ^ 64
  · rw [Nat.mod_eq_of_lt hw]
    exact le_trans (fade_ramp_le V D t hD) hV
  · have h1 : 2 ^ 64 ≤ V * (D - t) := le_of_not_lt hw
    have h2 : V * (D - t) ≤ 128 * D :=
      Nat.mul_le_mul (by simpa [mixMaxVolume] using hV) (Nat.sub_le D t)
    have hD57 : 2 ^ 57 ≤ D := by omega
    have h3 : V * (D - t) % 2 ^ 64 ≤ 2 ^ 64 - 1 := by omega
    calc V * (D - t) % 2 ^ 64 / D ≤ (2 ^ 64 - 1) / D := Nat.div_le_div_right h3
      _ ≤ (2 ^ 64 - 1) / 2 ^ 57 := Nat.div_le_div_left hD57 (by norm_num)
      _ ≤ mixMaxVolume := by decide

/-- C1 counterexample: a fade-out whose duration came from `ms = -1000`
(`fade_length = (Uint64)ms = 2^64 - 1000`, reachable through
`Mix_FadeOutChannel`) sampled at elapsed time 100 < D: the claim's formula
floor(V0·(D−t)/D) gives 127, but the C ramp multiplies in `Uint64`, the
product wraps mod 2^64, and the volume actually computed and applied is
0. -/
theorem C1_fadeout_wrapped_product :
    wrapFadeCh.fading = Fading.fadingOut
    ∧ wrapFadeCh.paused = 0 ∧ wrapFadeCh.expire = 0
    ∧ wrapFadeCh.fadeLength = 2 ^ 64 - 1000
    ∧ 100 - wrapFadeCh.ticksFade < wrapFadeCh.fadeLength
    ∧ wrapFadeCh.fadeVolume *
        (wrapFadeCh.fadeLength - (100 - wrapFadeCh.ticksFade)) / wrapFadeCh.fadeLength = 127
    ∧ (mixTickChannel 100 16 wrapFadeCh).1.volume = 0 := by
  refine ⟨rfl, rfl, rfl, by decide, by decide, by decide, ?_⟩
  rw [← mixTickChannelF_eq]
  decide

/-- C1 amended: for a channel fading out from volume `V0 = fade_volume`
over duration `D = fade_length`, a mixing callback at tick `now` (not
paused, not expired, fade started at `ticks_fade ≤ now`) with elapsed
`t = now - ticks_fade`: if `t < D` the volume computed and applied to the
channel is `(V0 * (D - t)) mod 2^64 / D` -- the product is the C ramp's
64-bit multiplication -- which equals the claim's floor formula
`V0 * (D - t) / D` whenever that product fits in 64 bits (so for every
fade whose duration came from a nonnegative `ms`); if `t ≥ D` the volume
is first restored to the pre-fade reset value and the channel is
force-stopped -- playing and looping cleared, expiry cleared, fade state
cleared to none, the finished-callback fired (with the effect chain
released). -/
theorem C1_fadeout_ramp_wrapped (now len : Nat) (ch : Channel)
    (hp : ch.paused = 0)
    (hexp : ¬ (0 < ch.expire ∧ ch.expire < now))
    (hfade : ch.fading = Fading.fadingOut)
    (ht0 : ch.ticksFade ≤ now) (hnow : now < 2 ^ 64)
    (hV : ch.fadeVolume ≤ mixMaxVolume) (hR : ch.fadeVolumeReset ≤ mixMaxVolume) :
    (now - ch.ticksFade < ch.fadeLength →
      (mixTickChannel now len ch).1.volume =
        ch.fadeVolume * (ch.fadeLength - (now - ch.ticksFade)) % 2 ^ 64 / ch.fadeLength
      ∧ (ch.fadeVolume * (ch.fadeLength - (now - ch.ticksFade)) < 2 ^ 64 →
        (mixTickChannel now len ch).1.volume =
          ch.fadeVolume * (ch.fadeLength - (now - ch.ticksFade)) / ch.fadeLength))
    ∧ (ch.fadeLength ≤ now - ch.ticksFade →
      (mixTickChannel now len ch).1 =
        { ch with volume := ch.fadeVolumeReset, playing := 0, looping := 0, expire := 0,
                  effects := [], fading := Fading.noFading }
      ∧ (mixTickChannel now len ch).2 = Ev.done :: drainEvents ch.effects) := by
  have htick : mixTickChannel now len ch =
      ((renderChannel (fadeStep now ch).1 len).1,
        (fadeStep now ch).2 ++ (renderChannel (fadeStep now ch).1 len).2) := by
    unfold mixTickChannel
    rw [if_neg (by simp [hp])]
    dsimp only
    rw [if_neg hexp]
  have husub : usub64 now ch.ticksFade = now - ch.ticksFade := usub64_eq now ch.ticksFade ht0 hnow
  constructor
  · intro hlt
    have hD : 0 < ch.fadeLength := by omega
    have hfs : (fadeStep now ch).1 =
        { ch with volume :=
            ch.fadeVolume * (ch.fadeLength - (now - ch.ticksFade)) % 2 ^ 64 / ch.fadeLength } := by
      unfold fadeStep
      rw [if_neg (by simp [hfade]), husub, if_neg (not_le.mpr hlt), if_pos hfade]
      exact channelVolumeOp_natCast ch _ (wrapped_ramp_le _ _ _ hV hD)
    refine ⟨?_, fun hfit => ?_⟩
    · rw [htick, renderChannel_volume, hfs]
    · rw [htick, renderChannel_volume, hfs]
      dsimp only
      rw [Nat.mod_eq_of_lt hfit]
  · intro hge
    have hcv : (channelVolumeOp ch ((ch.fadeVolumeReset : Nat) : Int)).1 =
        { ch with volume := ch.fadeVolumeReset } := channelVolumeOp_natCast ch _ hR
    have hfs : fadeStep now ch =
        ({ ch with volume := ch.fadeVolumeReset, playing := 0, looping := 0, expire := 0,
                   effects := [], fading := Fading.noFading },
         Ev.done :: drainEvents ch.effects) := by
      unfold fadeStep
      rw [if_neg (by simp [hfade]), husub, if_pos hge]
      dsimp only
      rw [hcv]
      rw [if_pos (by simpa using hfade)]
      simp [channelDonePlaying]
    have hrender : renderChannel (fadeStep now ch).1 len = ((fadeStep now ch).1, []) := by
      rw [hfs]
      unfold renderChannel
      rw [if_neg (by simp)]
    rw [htick, hrender, hfs]
    exact ⟨rfl, by simp⟩

/-- C1 witness: the channel fading out from volume 64 over 1000 ms
starting at tick 5 (a nonnegative-duration fade, so the product does not
wrap): at tick 505 (elapsed 500) the applied volume is
64 * 500 / 1000 = 32, agreeing with the unwrapped floor formula; at tick
2000 (elapsed 1995 ≥ 1000) the channel is stopped with its volume restored
to 64. -/
theorem C1_fadeout_ramp_wrapped_witness :
    (fadingOutCh.paused = 0 ∧ fadingOutCh.fading = Fading.fadingOut
      ∧ fadingOutCh.ticksFade ≤ 505 ∧ (505 : Nat) < 2 ^ 64
      ∧ fadingOutCh.fadeVolume ≤ mixMaxVolume ∧ fadingOutCh.fadeVolumeReset ≤ mixMaxVolume
      ∧ 505 - fadingOutCh.ticksFade < fadingOutCh.fadeLength
      ∧ fadingOutCh.fadeVolume * (fadingOutCh.fadeLength - (505 - fadingOutCh.ticksFade)) < 2 ^ 64
      ∧ fadingOutCh.fadeLength ≤ 2000 - fadingOutCh.ticksFade)
    ∧ (mixTickChannel 505 16 fadingOutCh).1.volume = 32
    ∧ (mixTickChannel 2000 16 fadingOutCh).1 =
        { fadingOutCh with volume := 64, playing := 0, looping := 0, expire := 0,
                           effects := [], fading := Fading.noFading } :=
  ⟨⟨rfl, rfl, by decide, by decide, by decide, by decide, by decide, by decide, by decide⟩,
   (((C1_fadeout_ramp_wrapped 505 16 fadingOutCh rfl (by decide) rfl (by decide) (by decide)
      (by decide) (by decide)).1 (by decide)).2 (by decide)).trans (by decide),
   (((C1_fadeout_ramp_wrapped 2000 16 fadingOutCh rfl (by decide) rfl (by decide) (by decide)
      (by decide) (by decide)).2 (by decide)).1).trans (by decide)⟩

/-! ## C2: looped playback and the finished callback -/

/-- C2 (code bug): a 4-byte chunk started with `loop_count = 2` and mixed
by a single callback with 16 bytes of output space (≥ 3·L = 12) is
traversed exactly 3 times -- the trace reads bytes [0,4) three times,
seamlessly and contiguously -- and the channel ends inert (playing = 0,
looping = 0), but the finished-callback never fires: the loop-wraparound
loop decrements the loop counter to zero and consumes the final traversal
without the `!playing && !looping` alert of the first render loop ever
seeing it.  The claim (and the first loop's own alert logic) requires
exactly one firing, after the third traversal. -/
theorem C2_loop_finished_callback_missed :
    loopedCh.looping = 2 ∧ loopedCh.chunkAlen = 4 ∧ loopedCh.playing = 4
    ∧ mixTickChannel 100 16 loopedCh =
        ({ loopedCh with samplesPos := 4, playing := 0, looping := 0 },
         [Ev.read 0 4, Ev.read 0 4, Ev.read 0 4])
    ∧ (mixTickChannel 100 16 loopedCh).2.count Ev.done = 0
    ∧ channelActive (mixTickChannel 100 16 loopedCh).1 = false := by
  rw [← mixTickChannelF_eq]
  decide

/-! ## C8: chunk truncation and read bounds -/

/-- The truncation loop computes `L - L % fw`. -/
theorem checkchunkintegral_eq (fw : Nat) (hfw : 0 < fw) (L : Nat) :
    checkchunkintegral fw L = L - L % fw := by
  induction L with
  | zero => simp [checkchunkintegral]
  | succ n ih =>
    unfold checkchunkintegral
    by_cases hm : (n + 1) % fw ≠ 0
    · rw [if_pos hm, ih]
      have hkey : (n + 1) % fw = (n % fw + 1) % fw := (Nat.mod_add_mod n fw 1).symm
      have hlt : n % fw < fw := Nat.mod_lt _ hfw
      by_cases hfull : n % fw + 1 = fw
      · exfalso
        apply hm
        rw [hkey, hfull, Nat.mod_self]
      · have h2 : (n + 1) % fw = n % fw + 1 := by
          rw [hkey, Nat.mod_eq_of_lt (by omega)]
        omega
    · rw [if_neg hm]
      push_neg at hm
      rw [hm]
      rfl

/-- Draining an effect chain produces no buffer reads. -/
theorem drainEvents_no_read (e : List EffectInfo) (off n : Nat) :
    Ev.read off n ∉ drainEvents e := by
  induction e with
  | nil => simp [drainEvents]
  | cons a t ih =>
    unfold drainEvents
    rcases a.doneCallback with _ | d <;> simp_all

/-- One step of the first render loop: the cursor invariant
`samplesPos + playing ≤ chunkAlen` is preserved (for the in-loop
`mixable ≤ playing`), the chunk is untouched, and no reads are emitted. -/
theorem mixStep1_spec (ch : Channel) (mixable : Nat) (hm : mixable ≤ ch.playing)
    (hinv : ch.samplesPos + ch.playing ≤ ch.chunkAlen) :
    (mixStep1 ch mixable).1.samplesPos + (mixStep1 ch mixable).1.playing ≤ ch.chunkAlen
    ∧ (mixStep1 ch mixable).1.chunkAlen = ch.chunkAlen
    ∧ ∀ off n, Ev.read off n ∉ (mixStep1 ch mixable).2 := by
  unfold mixStep1
  dsimp only
  split
  · refine ⟨by simp [channelDonePlaying]; omega, by simp [channelDonePlaying], ?_⟩
    intro off n
    simp [channelDonePlaying]
    exact fun h => drainEvents_no_read _ _ _ h
  · exact ⟨by dsimp only; omega, rfl, by simp⟩

/-- The first render loop reads only inside the chunk and preserves the
cursor invariant. -/
theorem mixLoop1_spec (ch : Channel) (len index : Nat) :
    ch.samplesPos + ch.playing ≤ ch.chunkAlen →
    ((mixLoop1 ch len index).1.samplesPos + (mixLoop1 ch len index).1.playing ≤ ch.chunkAlen
      ∧ (mixLoop1 ch len index).1.chunkAlen = ch.chunkAlen
      ∧ readsBounded ch.chunkAlen (mixLoop1 ch len index).2.2) := by
  induction ch, len, index using mixLoop1.induct with
  | case1 ch len index h mixable res ih =>
    intro hinv
    rw [mixLoop1.eq_def, dif_pos h]
    dsimp only
    unfold_let res mixable at ih
    have hstep := mixStep1_spec ch (min ch.playing (len - index)) (min_le_left _ _) hinv
    obtain ⟨hsi, hsa, hsr⟩ := hstep
    have ih' := ih (by rw [hsa]; exact hsi)
    obtain ⟨hi1, hi2, hi3⟩ := ih'
    rw [hsa] at hi1 hi2
    refine ⟨hi1, hi2, ?_⟩
    intro off n hmem
    rcases List.mem_cons.mp hmem with heq | hmem2
    · cases heq
      have : min ch.playing (len - index) ≤ ch.playing := min_le_left _ _
      omega
    · rcases List.mem_append.mp hmem2 with hr | hr
      · exact absurd hr (hsr off n)
      · have := hi3 off n hr
        rw [hsa] at this
        exact this
  | case2 ch len index h =>
    intro hinv
    rw [mixLoop1.eq_def, dif_neg h]
    exact ⟨hinv, rfl, by intro off n hmem; simp at hmem⟩

/-- The loop-wraparound loop reads only inside the chunk and establishes
the cursor invariant. -/
theorem mixLoop2_spec (ch : Channel) (len index : Nat) :
    ch.samplesPos + ch.playing ≤ ch.chunkAlen →
    ((mixLoop2 ch len index).1.samplesPos + (mixLoop2 ch len index).1.playing ≤ ch.chunkAlen
      ∧ (mixLoop2 ch len index).1.chunkAlen = ch.chunkAlen
      ∧ readsBounded ch.chunkAlen (mixLoop2 ch len index).2.2) := by
  induction ch, len, index using mixLoop2.induct with
  | case1 ch len index h remaining ch1 ih =>
    intro hinv
    rw [mixLoop2.eq_def, dif_pos h]
    dsimp only
    unfold_let ch1 remaining at ih
    have hrem : min (len - index) ch.chunkAlen ≤ ch.chunkAlen := min_le_right _ _
    have ih' := ih (by dsimp only; omega)
    obtain ⟨hi1, hi2, hi3⟩ := ih'
    refine ⟨hi1, hi2, ?_⟩
    intro off n hmem
    rcases List.mem_cons.mp hmem with heq | hmem2
    · cases heq
      omega
    · exact hi3 off n hmem2
  | case2 ch len index h =>
    intro hinv
    rw [mixLoop2.eq_def, dif_neg h]
    exact ⟨hinv, rfl, by intro off n hmem; simp at hmem⟩

/-- The render phase reads only inside the chunk and preserves the cursor
invariant. -/
theorem renderChannel_spec (ch : Channel) (len : Nat)
    (hinv : ch.samplesPos + ch.playing ≤ ch.chunkAlen) :
    (renderChannel ch len).1.samplesPos + (renderChannel ch len).1.playing ≤ ch.chunkAlen
    ∧ (renderChannel ch len).1.chunkAlen = ch.chunkAlen
    ∧ readsBounded ch.chunkAlen (renderChannel ch len).2 := by
  unfold renderChannel
  split
  · dsimp only
    obtain ⟨h11, h12, h13⟩ := mixLoop1_spec ch len 0 hinv
    obtain ⟨h21, h22, h23⟩ := mixLoop2_spec (mixLoop1 ch len 0).1 len (mixLoop1 ch len 0).2.1
      (by rw [h12]; exact h11)
    rw [h12] at h21 h22 h23
    split
    · refine ⟨by dsimp only; omega, by dsimp only; rw [h22], ?_⟩
      intro off n hmem
      rcases List.mem_append.mp hmem with hr | hr
      · exact h13 off n hr
      · exact h23 off n hr
    · refine ⟨h21, h22, ?_⟩
      intro off n hmem
      rcases List.mem_append.mp hmem with hr | hr
      · exact h13 off n hr
      · exact h23 off n hr
  · exact ⟨hinv, rfl, by intro off n hmem; simp at hmem⟩

/-- The fade check preserves the cursor invariant, leaves the chunk alone
and performs no reads. -/
theorem fadeStep_spec (now : Nat) (ch : Channel)
    (hinv : ch.samplesPos + ch.playing ≤ ch.chunkAlen) :
    (fadeStep now ch).1.samplesPos + (fadeStep now ch).1.playing ≤ ch.chunkAlen
    ∧ (fadeStep now ch).1.chunkAlen = ch.chunkAlen
    ∧ ∀ off n, Ev.read off n ∉ (fadeStep now ch).2 := by
  unfold fadeStep
  split
  · exact ⟨hinv, rfl, by simp⟩
  · dsimp only
    split
    · unfold channelVolumeOp
      dsimp only
      split
      · dsimp only
        split
        · refine ⟨by simp [channelDonePlaying]; omega, by simp [channelDonePlaying], ?_⟩
          intro off n
          simp [channelDonePlaying]
          exact fun h => drainEvents_no_read _ _ _ h
        · exact ⟨by dsimp only; omega, rfl, by simp⟩
      · dsimp only
        split
        · refine ⟨by simp [channelDonePlaying]; omega, by simp [channelDonePlaying], ?_⟩
          intro off n
          simp [channelDonePlaying]
          exact fun h => drainEvents_no_read _ _ _ h
        · exact ⟨by dsimp only; omega, rfl, by simp⟩
    · split
      · unfold channelVolumeOp
        dsimp only
        split
        · exact ⟨hinv, rfl, by simp⟩
        · exact ⟨hinv, rfl, by simp⟩
      · unfold channelVolumeOp
        dsimp only
        split
        · exact ⟨hinv, rfl, by simp⟩
        · exact ⟨hinv, rfl, by simp⟩

/-- Assembling the callback body from a pre-render step that respects the
cursor invariant, keeps the chunk, and emits no reads. -/
theorem tickAssemble (alen : Nat) (stepA : Channel × List Ev) (len : Nat)
    (h1 : stepA.1.samplesPos + stepA.1.playing ≤ alen)
    (h2 : stepA.1.chunkAlen = alen)
    (h3 : ∀ off n, Ev.read off n ∉ stepA.2) :
    ((renderChannel stepA.1 len).1.samplesPos + (renderChannel stepA.1 len).1.playing ≤ alen)
    ∧ (renderChannel stepA.1 len).1.chunkAlen = alen
    ∧ readsBounded alen (stepA.2 ++ (renderChannel stepA.1 len).2) := by
  obtain ⟨r1, r2, r3⟩ := renderChannel_spec stepA.1 len (by rw [h2]; exact h1)
  rw [h2] at r1 r2 r3
  refine ⟨r1, r2, ?_⟩
  intro off n hmem
  rcases List.mem_append.mp hmem with hr | hr
  · exact absurd hr (h3 off n)
  · exact r3 off n hr

/-- The whole per-channel callback body reads only inside the chunk and
preserves the cursor invariant. -/
theorem mixTickChannel_spec (now len : Nat) (ch : Channel)
    (hinv : ch.samplesPos + ch.playing ≤ ch.chunkAlen) :
    (mixTickChannel now len ch).1.samplesPos + (mixTickChannel now len ch).1.playing ≤ ch.chunkAlen
    ∧ (mixTickChannel now len ch).1.chunkAlen = ch.chunkAlen
    ∧ readsBounded ch.chunkAlen (mixTickChannel now len ch).2 := by
  unfold mixTickChannel
  split
  · exact ⟨hinv, rfl, by intro off n hmem; simp at hmem⟩
  · dsimp only
    split
    · refine tickAssemble ch.chunkAlen _ len ?_ ?_ ?_
      · simp only [channelDonePlaying]
        omega
      · simp [channelDonePlaying]
      · intro off n
        simp only [channelDonePlaying]
        intro hmem
        rcases List.mem_cons.mp hmem with heq | hmem2
        · cases heq
        · exact drainEvents_no_read _ _ _ hmem2
    · obtain ⟨f1, f2, f3⟩ := fadeStep_spec now ch hinv
      exact tickAssemble ch.chunkAlen _ len f1 f2 f3

/-- C8: the chunk length accepted for playback is `L - (L mod w)` for
frame width `w`; a chunk whose truncated length is zero is rejected as a
caller error (-1, nothing bound); binding establishes the cursor invariant
`samplesPos + playing = chunkAlen`, the mixing callback preserves it and
every chunk-buffer read it performs lies entirely below `chunkAlen` --
playback, looping included, never reads at or past the truncated
length. -/
theorem C8_chunk_truncation (fw L : Nat) (hfw : 0 < fw) (m : Mixer) (which : Int)
    (c : Chunk) (loops ticks : Int) (now len tick : Nat) (ch : Channel)
    (hc0 : checkchunkintegral (frameWidth m) c.alen = 0)
    (hinv : ch.samplesPos + ch.playing ≤ ch.chunkAlen) :
    checkchunkintegral fw L = L - L % fw
    ∧ Mix_PlayChannelTimed m which (some c) loops ticks now = (m, -1, [])
    ∧ readsBounded ch.chunkAlen (mixTickChannel tick len ch).2
    ∧ (mixTickChannel tick len ch).1.samplesPos + (mixTickChannel tick len ch).1.playing ≤ ch.chunkAlen
    ∧ (mixTickChannel tick len ch).1.chunkAlen = ch.chunkAlen
    ∧ ∀ alen cv, (bindChunk ch alen cv loops ticks now).samplesPos +
        (bindChunk ch alen cv loops ticks now).playing =
        (bindChunk ch alen cv loops ticks now).chunkAlen := by
  obtain ⟨t1, t2, t3⟩ := mixTickChannel_spec tick len ch hinv
  refine ⟨checkchunkintegral_eq fw hfw L, ?_, t3, t1, t2, fun alen cv => by simp [bindChunk]⟩
  simp only [Mix_PlayChannelTimed]
  dsimp only
  rw [if_pos hc0]

/-- C8 witness: frame width 4 (16-bit stereo): length 10 truncates to 8; a
3-byte chunk truncates to 0 and is rejected; the callback on a playing
channel with a 4-byte chunk reads only inside those 4 bytes. -/
theorem C8_chunk_truncation_witness :
    ((0 : Nat) < 4
      ∧ checkchunkintegral (frameWidth mixer2) ({ alen := 3, volume := 128 } : Chunk).alen = 0
      ∧ playingCh.samplesPos + playingCh.playing ≤ playingCh.chunkAlen)
    ∧ checkchunkintegral 4 10 = 10 - 10 % 4
    ∧ Mix_PlayChannelTimed mixer2 0 (some { alen := 3, volume := 128 }) 0 (-1) 50 = (mixer2, -1, [])
    ∧ readsBounded playingCh.chunkAlen (mixTickChannel 100 16 playingCh).2 :=
  ⟨⟨by decide, by decide, by decide⟩,
   (C8_chunk_truncation 4 10 (by decide) mixer2 0 { alen := 3, volume := 128 } 0 (-1) 50 16 100
      playingCh (by decide) (by decide)).1,
   (C8_chunk_truncation 4 10 (by decide) mixer2 0 { alen := 3, volume := 128 } 0 (-1) 50 16 100
      playingCh (by decide) (by decide)).2.1,
   (C8_chunk_truncation 4 10 (by decide) mixer2 0 { alen := 3, volume := 128 } 0 (-1) 50 16 100
      playingCh (by decide) (by decide)).2.2.1⟩
